import Mathlib

/-!
# idcn: Chinese identity numbers

A shallow embedding of `idcn.go`, `fake.go` and `src/handle.go`.

Conventions of the embedding.

* A Go `string` is the list of its bytes (`Str`); `len` is `List.length` and
  `s[a:b]` is `slice s a b`.  Region names are only compared for equality and
  emptiness, so they are Lean `String`s.
* `time.Now()` is an argument of type `Date`, one for each way the source reads
  the clock.  `isValidBirthday` compares the birthday, which `time.Parse` puts at
  midnight UTC, with the instant `time.Now()`: the birthday is after the instant
  exactly when its calendar date is after the UTC date of the instant, so
  `Validate` and `UpgradeTo18` take that UTC date (`now`).  `calcAge` and
  `generateBirthdayCode` read `Year()`, `Month()` and `Day()` of `time.Now()`,
  which are those of the local zone: they take the local date (`today` in
  `GetInfo`).  East of UTC the local date can be a day ahead of the UTC date, west
  of UTC a day behind.
* `math/rand` is an argument `Rng`, the list of raw values still to be drawn;
  `rand.Intn n` consumes one raw value `r` and yields `r % n`.
* A Go `map` is the list of its entries, in the order `range` visits them.
-/

namespace Idcn

/-! ## Strings -/

/-- A Go string, as its bytes. -/
abbrev Str := List Nat

/-- The bytes of an ASCII literal. -/
def ascii (s : String) : Str := s.data.map Char.toNat

/-- The slice `s[a:b]`. -/
def slice (s : Str) (a b : Nat) : Str := (s.take b).drop a

/-- The byte `s[i]`. -/
def byteAt (s : Str) (i : Nat) : Nat := s.getD i 0

/-- The test `'0' <= c && c <= '9'`. -/
def isDigit (c : Nat) : Bool := decide (48 ≤ c) && decide (c ≤ 57)

/-- The replacement character U+FFFD. -/
def RuneError : Nat := 0xFFFD

/-- Lowest second byte accepted after the leading byte `b0` (utf8 accept ranges). -/
def secondLo (b0 : Nat) : Nat := if b0 = 0xE0 then 0xA0 else if b0 = 0xF0 then 0x90 else 0x80

/-- Highest second byte accepted after the leading byte `b0` (utf8 accept ranges). -/
def secondHi (b0 : Nat) : Nat := if b0 = 0xED then 0x9F else if b0 = 0xF4 then 0x8F else 0xBF

/-- Continuation byte `10xxxxxx`. -/
def isCont (b : Nat) : Bool := decide (0x80 ≤ b) && decide (b ≤ 0xBF)

/-- The first code point of `s` and its width in bytes, as `range` over a string
decodes it: an invalid sequence gives U+FFFD and width 1. -/
def decodeRune : Str → Nat × Nat
  | [] => (RuneError, 0)
  | b0 :: t =>
    if b0 < 0x80 then (b0, 1)
    else if b0 < 0xC2 ∨ 0xF4 < b0 then (RuneError, 1)
    else
      match t with
      | [] => (RuneError, 1)
      | b1 :: t1 =>
        if b1 < secondLo b0 ∨ secondHi b0 < b1 then (RuneError, 1)
        else if b0 < 0xE0 then ((b0 % 32) * 64 + b1 % 64, 2)
        else
          match t1 with
          | [] => (RuneError, 1)
          | b2 :: t2 =>
            if !isCont b2 then (RuneError, 1)
            else if b0 < 0xF0 then ((b0 % 16) * 4096 + (b1 % 64) * 64 + b2 % 64, 3)
            else
              match t2 with
              | [] => (RuneError, 1)
              | b3 :: _ =>
                if !isCont b3 then (RuneError, 1)
                else ((b0 % 8) * 262144 + (b1 % 64) * 4096 + (b2 % 64) * 64 + b3 % 64, 4)

/-- The runes `for _, c := range s` visits; `fuel` bounds the number of iterations. -/
def runesAux : Nat → Str → List Nat
  | 0, _ => []
  | _ + 1, [] => []
  | fuel + 1, b0 :: t =>
    let rw := decodeRune (b0 :: t)
    rw.1 :: runesAux fuel ((b0 :: t).drop rw.2)

/-- The runes of `s`: each iteration advances at least one byte, so `len s`
iterations are enough. -/
def runes (s : Str) : List Nat := runesAux s.length s

/-! ## Errors and records -/

/-- The errors of the package: the five declared values and the three built in
place by `GetArea` and `getAreaByCode`. -/
inductive Err where
  | InvalidLength
  | InvalidFormat
  | InvalidBirthday
  | InvalidChecksum
  | InvalidAddress
  | AddressTooShort
  | AddressBadFormat
  | UnknownRegion (code : Nat)
  deriving DecidableEq, Repr

/-- The struct `parsedID`. -/
structure parsedID where
  addressCode : Str
  birthdayCode : Str
  orderCode : Str
  checkBit : Str
  length : Nat
  deriving DecidableEq, Repr

/-! ## Parsing -/

/-- The function `parse15`. -/
def parse15 (id : Str) : Except Err parsedID :=
  if (runes id).any (fun c => decide (c < 48) || decide (c > 57)) then
    .error .InvalidFormat
  else
    .ok { addressCode := slice id 0 6
          birthdayCode := ascii "19" ++ slice id 6 12
          orderCode := slice id 12 15
          checkBit := []
          length := 15 }

/-- The function `parse18`. -/
def parse18 (id : Str) : Except Err parsedID :=
  if (List.range 17).any (fun i => decide (byteAt id i < 48) || decide (byteAt id i > 57)) then
    .error .InvalidFormat
  else
    let last := byteAt id 17
    if !(decide (last ≥ 48) && decide (last ≤ 57)) && decide (last ≠ 88) && decide (last ≠ 120) then
      .error .InvalidFormat
    else
      let checkBit : Str := if last = 88 then ascii "x" else [last]
      .ok { addressCode := slice id 0 6
            birthdayCode := slice id 6 14
            orderCode := slice id 14 17
            checkBit := checkBit
            length := 18 }

/-- The function `parseID`. -/
def parseID (id : Str) : Except Err parsedID :=
  if id.length = 15 then parse15 id
  else if id.length = 18 then parse18 id
  else .error .InvalidLength

/-! ## Dates -/

/-- A calendar date. -/
structure Date where
  year : Nat
  month : Nat
  day : Nat
  deriving DecidableEq, Repr

/-- Leap years of the Gregorian calendar. -/
def isLeap (y : Nat) : Bool := y % 4 == 0 && (y % 100 != 0 || y % 400 == 0)

/-- Days of month `m` in year `y`. -/
def daysIn (m y : Nat) : Nat :=
  if m = 2 then (if isLeap y then 29 else 28)
  else if m = 4 ∨ m = 6 ∨ m = 9 ∨ m = 11 then 30
  else 31

/-- The value of a string of decimal digits. -/
def digitsVal (s : Str) : Nat := s.foldl (fun n ch => n * 10 + (ch - 48)) 0

/-- The call `time.Parse("20060102", s)` of the standard library: four digits of
year, two of month, two of day and nothing else; the month is in 1..12 and the
day exists in that month. -/
def timeParse (s : Str) : Option Date :=
  if s.length = 8 ∧ s.all isDigit = true then
    let y := digitsVal (slice s 0 4)
    let m := digitsVal (slice s 4 6)
    let d := digitsVal (slice s 6 8)
    if 1 ≤ m ∧ m ≤ 12 ∧ 1 ≤ d ∧ d ≤ daysIn m y then some ⟨y, m, d⟩ else none
  else none

/-- The method `a.After(b)` on calendar dates. -/
def Date.After (a b : Date) : Bool :=
  decide (a.year > b.year) ||
    (decide (a.year = b.year) &&
      (decide (a.month > b.month) || (decide (a.month = b.month) && decide (a.day > b.day))))

/-- The function `isValidBirthday`; `now` is the UTC date of the instant
`time.Now()`, the birthday being parsed at midnight UTC. -/
def isValidBirthday (now : Date) (birthdayCode : Str) : Bool :=
  match timeParse birthdayCode with
  | none => false
  | some birthday =>
    if birthday.year < 1800 then false
    else if birthday.After now then false
    else true

/-! ## Check character -/

/-- The weights of `calcCheckBit`. -/
def weights : List Nat := [7, 9, 10, 5, 8, 4, 2, 1, 6, 3, 7, 9, 10, 5, 8, 4, 2]

/-- The table `checkCodes` of `calcCheckBit`. -/
def checkCodes : List Str :=
  [ascii "1", ascii "0", ascii "x", ascii "9", ascii "8", ascii "7", ascii "6", ascii "5",
   ascii "4", ascii "3", ascii "2"]

/-- The function `calcCheckBit`; `body[i] - '0'` is a byte subtraction. -/
def calcCheckBit (body : Str) : Str :=
  if body.length ≠ 17 then []
  else
    let sum := (List.range 17).foldl
      (fun sum i => sum + ((byteAt body i + 256 - 48) % 256) * weights.getD i 0) 0
    checkCodes.getD (sum % 11) []

/-! ## Validation and upgrade -/

/-- The function `Validate`. -/
def Validate (now : Date) (id : Str) : Except Err Unit :=
  match parseID id with
  | .error err => .error err
  | .ok parsed =>
    if !isValidBirthday now parsed.birthdayCode then .error .InvalidBirthday
    else if parsed.length = 18 then
      let expected := calcCheckBit (slice id 0 17)
      if parsed.checkBit ≠ expected then .error .InvalidChecksum else .ok ()
    else .ok ()

/-- The function `IsValid`. -/
def IsValid (now : Date) (id : Str) : Bool :=
  match Validate now id with
  | .ok _ => true
  | .error _ => false

/-- The function `UpgradeTo18`. -/
def UpgradeTo18 (now : Date) (id : Str) : Except Err Str :=
  if id.length = 18 then .ok id
  else if id.length ≠ 15 then .error .InvalidLength
  else
    match parseID id with
    | .error err => .error err
    | .ok parsed =>
      if !isValidBirthday now parsed.birthdayCode then .error .InvalidBirthday
      else
        let body := parsed.addressCode ++ parsed.birthdayCode ++ parsed.orderCode
        let checkBit := calcCheckBit body
        .ok (body ++ checkBit)

deriving instance DecidableEq for Except

/-! ## Auxiliary definitions used to state the properties -/

/-- The check character `c` as a one-character string, `X` read as `x`. -/
def normCheck (c : Nat) : Str := if c = 88 then [120] else [c]

/-- The last character of an 18-character number is a digit, `X` or `x`. -/
def okCheck (c : Nat) : Bool := isDigit c || decide (c = 88) || decide (c = 120)

/-- The record `parse15` builds from `id`. -/
def record15 (id : Str) : parsedID :=
  { addressCode := slice id 0 6
    birthdayCode := ascii "19" ++ slice id 6 12
    orderCode := slice id 12 15
    checkBit := []
    length := 15 }

/-- The record `parse18` builds from `id`. -/
def record18 (id : Str) : parsedID :=
  { addressCode := slice id 0 6
    birthdayCode := slice id 6 14
    orderCode := slice id 14 17
    checkBit := normCheck (byteAt id 17)
    length := 18 }

/-- The 17-character body `UpgradeTo18` builds from a 15-character number. -/
def body15 (n : Str) : Str := slice n 0 6 ++ (ascii "19" ++ slice n 6 12) ++ slice n 12 15

/-! ## Region tables and region names (`src/handle.go`, `getAreaByCode`) -/

/-- The struct `AreaInfo`. -/
structure AreaInfo where
  Province : String
  City : String
  District : String
  deriving DecidableEq, Repr

/-- The three tables of package `src`, none of which is part of the sources at
hand: `_addressCode` (the current table), `_historyCodeData` (the historical
snapshot) and the table behind `GetAddressCodeTimeline`; every map is the list
of its entries. -/
structure Gazetteer where
  addressCode : List (Nat × String)
  timeline : List (Nat × List (List (String × String)))
  historyCodeData : List (Nat × AreaInfo)

/-- The index expression `m[k]` on a map to strings: the value, or `""` when `k`
is not a key. -/
def mapGet {κ : Type} [BEq κ] (m : List (κ × String)) (k : κ) : String :=
  (m.lookup k).getD ""

/-- The function `GetAddressCodeTimeline`: the timeline recorded for `code`,
empty when there is none. -/
def GetAddressCodeTimeline (g : Gazetteer) (code : Nat) : List (List (String × String)) :=
  (g.timeline.lookup code).getD []

/-- The function `GetHistoryAreaInfo`. -/
def GetHistoryAreaInfo (g : Gazetteer) (code : Nat) : Option AreaInfo :=
  g.historyCodeData.lookup code

/-- The function `GetHistoryAddress`. -/
def GetHistoryAddress (g : Gazetteer) (code : Nat) : String :=
  match GetHistoryAreaInfo g code with
  | none => ""
  | some info =>
    if info.District ≠ "" then info.District
    else if info.City ≠ "" then info.City
    else info.Province

/-- The function `getAddressName`. -/
def getAddressName (g : Gazetteer) (code : Nat) : String :=
  let addr := mapGet g.addressCode code
  if addr ≠ "" then addr
  else
    match GetAddressCodeTimeline g code with
    | entry :: _ => mapGet entry "address"
    | [] => GetHistoryAddress g code

/-- The function `getAreaByCode`. -/
def getAreaByCode (g : Gazetteer) (code : Nat) : Except Err AreaInfo :=
  let provinceCode := (code / 10000) * 10000
  let cityCode := (code / 100) * 100
  let districtCode := code
  let Province := getAddressName g provinceCode
  let City := if cityCode ≠ provinceCode then getAddressName g cityCode else ""
  let District :=
    if districtCode ≠ cityCode ∧ districtCode ≠ provinceCode then getAddressName g districtCode
    else ""
  if Province = "" then
    match GetHistoryAreaInfo g code with
    | some info => .ok info
    | none => .error (.UnknownRegion code)
  else .ok { Province := Province, City := City, District := District }

/-- The call `strconv.ParseUint(s, 10, 32)`: the value of a non-empty string of
digits below `2^32`. -/
def parseUint32 (s : Str) : Option Nat :=
  if s ≠ [] ∧ s.all isDigit = true ∧ digitsVal s < 2 ^ 32 then some (digitsVal s) else none

/-- The function `GetArea`. -/
def GetArea (g : Gazetteer) (code : Str) : Except Err AreaInfo :=
  if code.length < 6 then .error .AddressTooShort
  else
    match parseUint32 (slice code 0 6) with
    | none => .error .AddressBadFormat
    | some addressCode => getAreaByCode g addressCode

/-! ## Auxiliary definitions for the region claims -/

/-- The name the timeline gives for `code`: that of its first entry, `""` without entries. -/
def timelineName (g : Gazetteer) (code : Nat) : String :=
  match GetAddressCodeTimeline g code with
  | entry :: _ => mapGet entry "address"
  | [] => ""

/-- The name of `code` is empty in each of the three sources: the current table,
the timeline and the historical snapshot. -/
def emptyInAllSources (g : Gazetteer) (code : Nat) : Prop :=
  mapGet g.addressCode code = "" ∧ timelineName g code = "" ∧ GetHistoryAddress g code = ""

/-- The area `getAreaByCode` assembles tier by tier for `code`. -/
def tierArea (g : Gazetteer) (code : Nat) : AreaInfo :=
  { Province := getAddressName g (code / 10000 * 10000)
    City := if code / 100 * 100 ≠ code / 10000 * 10000 then getAddressName g (code / 100 * 100)
      else ""
    District :=
      if code ≠ code / 100 * 100 ∧ code ≠ code / 10000 * 10000 then getAddressName g code
      else "" }

/-- A table whose only record of province 990000 is a timeline entry without a
name and a snapshot entry. -/
def shadowGazetteer : Gazetteer :=
  { addressCode := []
    timeline := [(990000, [[("address", "")]])]
    historyCodeData := [(990000, { Province := "P", City := "", District := "" })] }

/-- A table in which 110103 is only in the snapshot while its province and city
are current. -/
def beijingGazetteer : Gazetteer :=
  { addressCode := [(110000, "北京市"), (110100, "北京市")]
    timeline := []
    historyCodeData := [(110103, { Province := "北京市", City := "市辖区", District := "崇文区" })] }

/-- A table whose current part names only the province 310000. -/
def shanghaiGazetteer : Gazetteer :=
  { addressCode := [(310000, "上海市")]
    timeline := []
    historyCodeData := [] }

/-- The most specific non-empty name of a snapshot entry: district, else city,
else province. -/
def mostSpecific (info : AreaInfo) : String :=
  if info.District ≠ "" then info.District
  else if info.City ≠ "" then info.City
  else info.Province

/-- A table whose current part holds the single district 110101. -/
def dongchengGazetteer : Gazetteer :=
  { addressCode := [(110101, "东城区")]
    timeline := []
    historyCodeData := [] }

/-- A table with current names for the province 110000 and the district 110101
and no name at all for the city 110100. -/
def sparseGazetteer : Gazetteer :=
  { addressCode := [(110000, "北京市"), (110101, "东城区")]
    timeline := []
    historyCodeData := [] }

/-- A table with the three sources filled for different codes. -/
def layeredGazetteer : Gazetteer :=
  { addressCode := [(110000, "北京市")]
    timeline := [(110100, [[("address", "北京市辖区")], [("address", "旧名")]])]
    historyCodeData := [(110103, { Province := "北京市", City := "市辖区", District := "崇文区" })] }

/-- The area `GetInfo` puts in place of a region it cannot resolve. -/
def emptyArea : AreaInfo := { Province := "", City := "", District := "" }

/-- A table with the province 440000, a city and two districts of it, and a
district of another province. -/
def guangdongGazetteer : Gazetteer :=
  { addressCode := [(110101, "东城区"), (440000, "广东省"), (440300, "深圳市"),
      (440305, "南山区"), (440104, "越秀区")]
    timeline := []
    historyCodeData := [] }

/-! ## Generation (`fake.go`) -/

/-- The source of `math/rand`: the raw values still to be drawn. -/
abbrev Rng := List Nat

/-- The call `rand.Intn(n)`: the next raw value, reduced into `[0, n)`. -/
def Intn (n : Nat) (rng : Rng) : Nat × Rng :=
  match rng with
  | [] => (0, [])
  | r :: rest => (r % n, rest)

/-- The function `randRange`. -/
def randRange (min max : Int) (rng : Rng) : Int × Rng :=
  if min ≥ max then (min, rng)
  else
    let d := Intn (max - min + 1).toNat rng
    ((d.1 : Int) + min, d.2)

/-- Decimal digits of `n`, most significant first; `fuel` bounds their number. -/
def decimalAux : Nat → Nat → Str
  | 0, _ => []
  | fuel + 1, n => if n < 10 then [48 + n] else decimalAux fuel (n / 10) ++ [48 + n % 10]

/-- The decimal form of `n`, as `%d` prints it. -/
def decimal (n : Nat) : Str := decimalAux (n + 1) n

/-- Zeros in front of `s` up to the width `w`. -/
def zeroPad (w : Nat) (s : Str) : Str := List.replicate (w - s.length) 48 ++ s

/-- The call `fmt.Sprintf("%0wd", n)`: the sign, then zeros up to the width. -/
def sprintf0d (w : Nat) (n : Int) : Str :=
  if n < 0 then 45 :: zeroPad (w - 1) (decimal n.natAbs) else zeroPad w (decimal n.toNat)

/-- The value of `strconv.Atoi(s)`, the error dropped, for the short strings of
this package: an optional sign and digits, and 0 for anything else. -/
def Atoi (s : Str) : Int :=
  match s with
  | [] => 0
  | c :: t =>
    let digits := if c = 45 ∨ c = 43 then t else c :: t
    if digits = [] ∨ digits.all isDigit = false then 0
    else if c = 45 then -(digitsVal digits : Int)
    else (digitsVal digits : Int)

/-- The function `classifyAddressCode`. -/
def classifyAddressCode (code : Nat) : String :=
  if code / 100000 = 8 then "special"
  else if code % 10000 = 0 then "province"
  else if code % 100 = 0 then "city"
  else "district"

/-- The function `getRandomDistrictCode`. -/
def getRandomDistrictCode (addressData : List (Nat × String)) (rng : Rng) : Str × Rng :=
  let districtCodes := (addressData.map Prod.fst).filter (fun (code : Nat) => code % 100 ≠ 0)
  if districtCodes.length = 0 then ([], rng)
  else
    let idx := Intn districtCodes.length rng
    (sprintf0d 6 (districtCodes.getD idx.1 0 : Nat), idx.2)

/-- A regular expression `^lit\d{digits}$`, `lit` a string of digits. -/
structure Pattern where
  lit : Str
  digits : Nat

/-- The method `MatchString` on `^lit\d{digits}$`. -/
def Pattern.MatchString (re : Pattern) (s : Str) : Bool :=
  decide (s.length = re.lit.length + re.digits) && decide (s.take re.lit.length = re.lit) &&
    (s.drop re.lit.length).all isDigit

/-- The function `getRandomCodeByPattern`. -/
def getRandomCodeByPattern (addressData : List (Nat × String)) (pattern : Pattern) (rng : Rng) :
    Str × Rng :=
  let matched := (addressData.map Prod.fst).filter
    (fun (code : Nat) => pattern.MatchString (sprintf0d 6 (code : Int)) && decide (code % 100 ≠ 0))
  if matched.length = 0 then getRandomDistrictCode addressData rng
  else
    let idx := Intn matched.length rng
    (sprintf0d 6 (matched.getD idx.1 0 : Nat), idx.2)

/-- The function `generateAddressCode`. -/
def generateAddressCode (g : Gazetteer) (address : String) (rng : Rng) : Str × Rng :=
  let addressData := g.addressCode
  if address = "" then getRandomDistrictCode addressData rng
  else
    let matchedCode :=
      match addressData.find? (fun e => e.2 == address) with
      | some e => e.1
      | none => 0
    if matchedCode = 0 then getRandomDistrictCode addressData rng
    else
      let classification := classifyAddressCode matchedCode
      if classification = "province" then
        getRandomCodeByPattern addressData ⟨sprintf0d 2 (matchedCode / 10000 : Nat), 4⟩ rng
      else if classification = "city" then
        getRandomCodeByPattern addressData ⟨sprintf0d 4 (matchedCode / 100 : Nat), 2⟩ rng
      else (sprintf0d 6 (matchedCode : Nat), rng)

/-- The function `generateBirthdayCode`: the `switch` on the length, the check of
the year, the check against today, the check of the month and that of the day;
`now` is the local date, the year, month and day of `time.Now()`. -/
def generateBirthdayCode (now : Date) (birthday : Str) (rng : Rng) : Str × Rng :=
  let given : Int × Int × Int × Rng :=
    if birthday.length = 8 then
      (Atoi (slice birthday 0 4), Atoi (slice birthday 4 6), Atoi (slice birthday 6 8), rng)
    else if birthday.length = 6 then
      let d := randRange 1 28 rng
      (Atoi (slice birthday 0 4), Atoi (slice birthday 4 6), d.1, d.2)
    else if birthday.length = 4 then
      let m := randRange 1 12 rng
      let d := randRange 1 28 m.2
      (Atoi birthday, m.1, d.1, d.2)
    else
      let y := randRange 1950 ((now.year : Int) - 1) rng
      let m := randRange 1 12 y.2
      let d := randRange 1 28 m.2
      (y.1, m.1, d.1, d.2)
  let year0 := given.1
  let month0 := given.2.1
  let day0 := given.2.2.1
  let year : Int × Rng :=
    if year0 < 1900 ∨ year0 > (now.year : Int) then
      randRange 1950 ((now.year : Int) - 1) given.2.2.2
    else (year0, given.2.2.2)
  let month1 : Int × Rng :=
    if year.1 = (now.year : Int) ∧ month0 > (now.month : Int) then
      randRange 1 (now.month : Int) year.2
    else (month0, year.2)
  let day1 : Int × Rng :=
    if year.1 = (now.year : Int) ∧ month1.1 = (now.month : Int) ∧ day0 > (now.day : Int) then
      randRange 1 (now.day : Int) month1.2
    else (day0, month1.2)
  let month : Int × Rng :=
    if month1.1 < 1 ∨ month1.1 > 12 then randRange 1 12 day1.2 else (month1.1, day1.2)
  let day : Int × Rng :=
    if day1.1 < 1 ∨ day1.1 > 28 then randRange 1 28 month.2 else (day1.1, month.2)
  (sprintf0d 4 year.1 ++ sprintf0d 2 month.1 ++ sprintf0d 2 day.1, day.2)

/-- The function `generateOrderCode`; `order` is positive, so that `%` is Go's
remainder. -/
def generateOrderCode (sex : Int) (rng : Rng) : Str × Rng :=
  let drawn := randRange 1 999 rng
  let order : Int :=
    if sex = 1 ∧ drawn.1 % 2 = 0 then
      (if drawn.1 + 1 > 999 then 999 else drawn.1 + 1)
    else if sex = 0 ∧ drawn.1 % 2 = 1 then
      (if drawn.1 + 1 > 999 then 998 else drawn.1 + 1)
    else drawn.1
  (sprintf0d 3 order, drawn.2)

/-- The function `FakeRequireId`. -/
def FakeRequireId (g : Gazetteer) (now : Date) (isEighteen : Bool) (address : String)
    (birthday : Str) (sex : Int) (rng : Rng) : Str :=
  let addressCode := generateAddressCode g address rng
  if addressCode.1 = [] then []
  else
    let birthdayCode := generateBirthdayCode now birthday addressCode.2
    let orderCode := generateOrderCode sex birthdayCode.2
    if !isEighteen then addressCode.1 ++ birthdayCode.1.drop 2 ++ orderCode.1
    else
      let body := addressCode.1 ++ birthdayCode.1 ++ orderCode.1
      body ++ calcCheckBit body

/-- The function `FakeId`. -/
def FakeId (g : Gazetteer) (now : Date) (rng : Rng) : Str :=
  FakeRequireId g now true "" [] (-1) rng

/-! ## Auxiliary definitions for the generation claims -/

/-- The `w` low decimal digits of `n`, most significant first. -/
def padDigits : Nat → Nat → Str
  | 0, _ => []
  | w + 1, n => padDigits w (n / 10) ++ [48 + n % 10]

/-- The month and day fields of a birthday constraint, where it has them, are
positive numbers. -/
def positiveFields (birthday : Str) : Prop :=
  (birthday.length = 8 → 1 ≤ Atoi (slice birthday 4 6) ∧ 1 ≤ Atoi (slice birthday 6 8)) ∧
    (birthday.length = 6 → 1 ≤ Atoi (slice birthday 4 6))

/-- The clock shows a date of the years 1950 to 9999. -/
def plausibleNow (now : Date) : Prop :=
  1950 ≤ now.year ∧ now.year ≤ 9999 ∧ 1 ≤ now.month ∧ now.month ≤ 12 ∧ 1 ≤ now.day ∧
    now.day ≤ 31

/-- The check character of value `c`: `x` for 10, the digit otherwise. -/
def checkChar (c : Nat) : Str := if c = 10 then ascii "x" else [48 + c]

/-- The sum `a_0 * 2^17 + a_1 * 2^16 + ... + a_16 * 2^1` of ISO 7064 MOD 11-2 over
the digit values of a 17-character body. -/
def iso7064Sum (body : Str) : Nat :=
  ((List.range 17).map (fun i => (byteAt body i - 48) * 2 ^ (17 - i))).sum

/-! ## Information of a number (`GetInfo`, `calcAge`) -/

/-- The struct `Info`. -/
structure Info where
  Age : Int
  Birthday : Str
  Gender : Int
  deriving DecidableEq, Repr

/-- The struct `IDCardInfo`. -/
structure IDCardInfo where
  CardNo : Str
  Area : AreaInfo
  Info : Info
  deriving DecidableEq, Repr

/-- The function `calcAge`; `now` is the local date, the year, month and day of
`time.Now()`. -/
def calcAge (now birthday : Date) : Int :=
  let age : Int := (now.year : Int) - (birthday.year : Int)
  if now.month < birthday.month ∨ (now.month = birthday.month ∧ now.day < birthday.day) then
    age - 1
  else age

/-- The call `t.Format("2006-01-02")` of the standard library. -/
def formatDate (t : Date) : Str :=
  sprintf0d 4 (t.year : Int) ++ ascii "-" ++ sprintf0d 2 (t.month : Int) ++ ascii "-" ++
    sprintf0d 2 (t.day : Int)

/-- The function `GetInfo`. The errors of the second `parseID`, of `ParseUint`,
`time.Parse`, `Atoi` and `UpgradeTo18` are dropped as in the source: a failed
`ParseUint` or `Atoi` leaves 0, a failed `time.Parse` the zero time 0001-01-01,
a failed `UpgradeTo18` the empty string. The second `parseID` cannot fail,
`Validate` having accepted the same string. `Validate` and `UpgradeTo18` compare
the birthday with the instant `time.Now()`, whose UTC date is `now`; `calcAge`
reads the local date `today`. -/
def GetInfo (g : Gazetteer) (now today : Date) (id : Str) : Except Err IDCardInfo :=
  match Validate now id with
  | .error err => .error err
  | .ok _ =>
    match parseID id with
    | .error err => .error err
    | .ok parsed =>
      let addressCode := (parseUint32 parsed.addressCode).getD 0
      let area : AreaInfo :=
        match getAreaByCode g addressCode with
        | .ok a => a
        | .error _ => { Province := "", City := "", District := "" }
      let birthday := (timeParse parsed.birthdayCode).getD ⟨1, 1, 1⟩
      let age := calcAge today birthday
      let order := Atoi parsed.orderCode
      let gender : Int := if order % 2 = 0 then 0 else 1
      let cardNo : Str :=
        if parsed.length = 15 then
          (match UpgradeTo18 now id with
            | .ok s => s
            | .error _ => [])
        else id
      .ok { CardNo := cardNo
            Area := area
            Info := { Age := age, Birthday := formatDate birthday, Gender := gender } }

/-! ## Parsing lemmas -/

theorem isDigit_of_ge (r : Nat) (h : 58 ≤ r) : isDigit r = false := by
  simp [isDigit]; omega

theorem second_bounds (b0 : Nat) :
    (b0 = 0xE0 → secondLo b0 = 0xA0) ∧ (b0 = 0xF0 → secondLo b0 = 0x90) ∧
      secondHi b0 ≤ 0xBF := by
  unfold secondLo secondHi
  refine ⟨?_, ?_, ?_⟩
  · intro h; simp [h]
  · intro h; simp [h]
  · split_ifs <;> omega

theorem decodeRune_ge (b0 : Nat) (t : Str) (hb : ¬ b0 < 0x80) :
    0x80 ≤ (decodeRune (b0 :: t)).1 := by
  obtain ⟨h1, h2, h3⟩ := second_bounds b0
  rcases t with _ | ⟨b1, _ | ⟨b2, _ | ⟨b3, t3⟩⟩⟩
  all_goals simp only [decodeRune, RuneError, if_neg hb]
  all_goals split_ifs
  all_goals simp only []
  all_goals omega

theorem decodeRune_not_digit (b0 : Nat) (t : Str) (h : isDigit b0 = false) :
    isDigit (decodeRune (b0 :: t)).1 = false := by
  by_cases hb : b0 < 0x80
  · simpa [decodeRune, hb] using h
  · exact isDigit_of_ge _ (by have := decodeRune_ge b0 t hb; omega)

theorem decodeRune_of_digit (b0 : Nat) (t : Str) (h : isDigit b0 = true) :
    decodeRune (b0 :: t) = (b0, 1) := by
  have h57 : b0 < 0x80 := by
    simp [isDigit] at h; omega
  simp [decodeRune, h57]

theorem runesAux_all_digit (fuel : Nat) (s : Str) (h : s.length ≤ fuel) :
    (runesAux fuel s).all isDigit = s.all isDigit := by
  induction fuel generalizing s with
  | zero =>
    have : s = [] := List.length_eq_zero.mp (Nat.le_zero.mp h)
    subst this; simp [runesAux]
  | succ fuel ih =>
    cases s with
    | nil => simp [runesAux]
    | cons b0 t =>
      cases hd : isDigit b0 with
      | true =>
        have ht : t.length ≤ fuel := by simpa using h
        simp [runesAux, decodeRune_of_digit b0 t hd, hd, ih t ht]
      | false =>
        have := decodeRune_not_digit b0 t hd
        simp [runesAux, hd, this]

theorem runes_all_digit (s : Str) : (runes s).all isDigit = s.all isDigit :=
  runesAux_all_digit s.length s (Nat.le_refl _)

theorem notDigit_eq (c : Nat) : (decide (c < 48) || decide (c > 57)) = !isDigit c := by
  unfold isDigit
  by_cases h1 : c < 48 <;> by_cases h2 : c > 57 <;> simp [h1, h2]
  omega

theorem any_notDigit (l : List Nat) :
    l.any (fun c => decide (c < 48) || decide (c > 57)) = !l.all isDigit := by
  simp only [notDigit_eq, List.not_all_eq_any_not]

theorem range_all_take (p : Nat → Bool) (s : Str) (n : Nat) (h : n ≤ s.length) :
    (List.range n).all (fun i => p (byteAt s i)) = (s.take n).all p := by
  induction n with
  | zero => simp
  | succ n ih =>
    have hn : n < s.length := h
    rw [List.range_succ, List.all_append, ih (Nat.le_of_lt hn), List.take_succ, List.all_append]
    simp [byteAt, List.getD, List.getElem?_eq_getElem hn]

theorem range_any_notDigit (s : Str) (n : Nat) (h : n ≤ s.length) :
    (List.range n).any (fun i => decide (byteAt s i < 48) || decide (byteAt s i > 57))
      = !(slice s 0 n).all isDigit := by
  have := range_all_take isDigit s n h
  simp only [slice, List.drop_zero]
  rw [← this]
  simp only [notDigit_eq, List.not_all_eq_any_not]

theorem parse15_eq (id : Str) :
    parse15 id = if id.all isDigit = true then .ok (record15 id) else .error .InvalidFormat := by
  unfold parse15
  rw [any_notDigit, runes_all_digit]
  cases h : id.all isDigit <;> simp [record15]

theorem parse18_eq (id : Str) (hlen : 17 ≤ id.length) :
    parse18 id =
      if (slice id 0 17).all isDigit = true then
        (if okCheck (byteAt id 17) = true then .ok (record18 id) else .error .InvalidFormat)
      else .error .InvalidFormat := by
  unfold parse18
  rw [range_any_notDigit id 17 hlen]
  cases h : (slice id 0 17).all isDigit
  · simp
  · simp only [Bool.not_true, Bool.false_eq_true, if_false, if_true]
    by_cases h1 : isDigit (byteAt id 17) = true
    · have h1' := h1
      simp only [isDigit, Bool.and_eq_true, decide_eq_true_eq] at h1'
      have h88 : byteAt id 17 ≠ 88 := by omega
      simp [okCheck, h1, h1'.1, h1'.2, record18, normCheck, h88]
    · have h1' : ¬ (48 ≤ byteAt id 17 ∧ byteAt id 17 ≤ 57) := by
        simpa [isDigit] using h1
      by_cases h88 : byteAt id 17 = 88
      · simp [okCheck, h88, record18, normCheck, ascii]
      · by_cases h120 : byteAt id 17 = 120
        · simp [okCheck, h120, record18, normCheck]
        · have h1b : isDigit (byteAt id 17) = false := by simpa using h1
          have : ¬ (byteAt id 17 ≥ 48 ∧ byteAt id 17 ≤ 57) := h1'
          simp [okCheck, h1b, h88, h120]
          intro h48; omega

/-! ## Validate, case by case -/

theorem Validate_eq_15 (now : Date) (id : Str) (hlen : id.length = 15) :
    Validate now id =
      if id.all isDigit = true then
        (if isValidBirthday now (ascii "19" ++ slice id 6 12) = true then .ok ()
         else .error .InvalidBirthday)
      else .error .InvalidFormat := by
  unfold Validate parseID
  rw [if_pos hlen, parse15_eq]
  cases h : id.all isDigit
  · simp
  · cases hb : isValidBirthday now (ascii "19" ++ slice id 6 12) <;> simp [record15, hb]

theorem slice_length (s : Str) (a b : Nat) (h : b ≤ s.length) : (slice s a b).length = b - a := by
  simp [slice, List.length_drop, List.length_take, Nat.min_eq_left h]

theorem normCheck_ne_nil (c : Nat) : normCheck c ≠ [] := by
  unfold normCheck; split_ifs <;> simp

theorem Validate_eq_18 (now : Date) (id : Str) (hlen : id.length = 18) :
    Validate now id =
      if (slice id 0 17).all isDigit = true ∧ okCheck (byteAt id 17) = true then
        (if isValidBirthday now (slice id 6 14) = true then
          (if normCheck (byteAt id 17) ≠ calcCheckBit (slice id 0 17) then .error .InvalidChecksum
           else .ok ())
         else .error .InvalidBirthday)
      else .error .InvalidFormat := by
  unfold Validate parseID
  have h15 : ¬ id.length = 15 := by omega
  rw [if_neg h15, if_pos hlen, parse18_eq id (by omega)]
  cases h : (slice id 0 17).all isDigit
  · simp
  · cases hc : okCheck (byteAt id 17)
    · simp
    · cases hb : isValidBirthday now (slice id 6 14) <;> simp [record18, hb]

theorem Validate_eq_other (now : Date) (id : Str) (h15 : id.length ≠ 15) (h18 : id.length ≠ 18) :
    Validate now id = .error .InvalidLength := by
  unfold Validate parseID
  rw [if_neg h15, if_neg h18]

theorem parseID_ok (id : Str) (p : parsedID) (h : parseID id = .ok p) :
    (id.length = 15 ∧ p = record15 id) ∨ (id.length = 18 ∧ p = record18 id) := by
  unfold parseID at h
  by_cases h15 : id.length = 15
  · rw [if_pos h15, parse15_eq] at h
    left
    refine ⟨h15, ?_⟩
    split_ifs at h
    exact (Except.ok.inj h).symm
  · rw [if_neg h15] at h
    by_cases h18 : id.length = 18
    · rw [if_pos h18, parse18_eq id (by omega)] at h
      right
      refine ⟨h18, ?_⟩
      split_ifs at h
      exact (Except.ok.inj h).symm
    · rw [if_neg h18] at h
      cases h

theorem slice_append_left (a b : Str) (i j : Nat) (h : j ≤ a.length) :
    slice (a ++ b) i j = slice a i j := by
  simp [slice, List.take_append_of_le_length h]

theorem slice_append_all (a b : Str) : slice (a ++ b) 0 a.length = a := by
  simp [slice]

theorem byteAt_append_last (a : Str) (c : Nat) : byteAt (a ++ [c]) a.length = c := by
  simp [byteAt, List.getD]

theorem eq_slice_append_last (n : Str) (k : Nat) (h : n.length = k + 1) :
    n = slice n 0 k ++ [byteAt n k] := by
  have hk : k < n.length := by omega
  have h1 : n.take (k + 1) = n := List.take_of_length_le (by omega)
  have h2 := List.take_succ (l := n) (n := k)
  rw [h1] at h2
  simp only [slice, List.drop_zero, byteAt, List.getD, List.getElem?_eq_getElem hk,
    Option.getD_some]
  simpa [List.getElem?_eq_getElem hk] using h2

theorem Validate_append (now : Date) (body : Str) (c : Nat) (hlen : body.length = 17) :
    Validate now (body ++ [c]) =
      if body.all isDigit = true ∧ okCheck c = true then
        (if isValidBirthday now (slice body 6 14) = true then
          (if normCheck c ≠ calcCheckBit body then .error .InvalidChecksum else .ok ())
         else .error .InvalidBirthday)
      else .error .InvalidFormat := by
  have h1 : slice (body ++ [c]) 0 17 = body := by
    rw [← hlen]; exact slice_append_all body [c]
  have h2 : byteAt (body ++ [c]) 17 = c := by
    rw [← hlen]; exact byteAt_append_last body c
  have h3 : slice (body ++ [c]) 6 14 = slice body 6 14 :=
    slice_append_left body [c] 6 14 (by omega)
  rw [Validate_eq_18 now (body ++ [c]) (by simp [hlen]), h1, h2, h3]


/-! ## Claims on validation -/

/-- C1: for a string the parser accepts, `Validate` is a fail-fast pipeline. The
record's birth code is `"19" ++ id[6:12]` for 15 characters and `id[6:14]` for 18.
A birth code failing the date check gives `InvalidBirthday` whatever the check
character; otherwise an 18-character input gives `InvalidChecksum` exactly when
`calcCheckBit` of the first 17 characters differs from the last character with
`X` read as `x`, and succeeds when they agree; a 15-character input with a valid
birth date succeeds, no check character being looked at. -/
theorem Validate_pipeline (now : Date) (id : Str) (parsed : parsedID)
    (hparse : parseID id = .ok parsed) :
    (parsed.birthdayCode =
        if id.length = 15 then ascii "19" ++ slice id 6 12 else slice id 6 14) ∧
    (isValidBirthday now parsed.birthdayCode = false →
        Validate now id = .error .InvalidBirthday) ∧
    (isValidBirthday now parsed.birthdayCode = true → id.length = 18 →
        (Validate now id = .error .InvalidChecksum ↔
            calcCheckBit (slice id 0 17) ≠ normCheck (byteAt id 17)) ∧
        (calcCheckBit (slice id 0 17) = normCheck (byteAt id 17) →
            Validate now id = .ok ())) ∧
    (isValidBirthday now parsed.birthdayCode = true → id.length = 15 →
        Validate now id = .ok ()) := by
  rcases parseID_ok id parsed hparse with ⟨h15, hp⟩ | ⟨h18, hp⟩
  · subst hp
    have hv := Validate_eq_15 now id h15
    have hfmt : id.all isDigit = true := by
      unfold parseID at hparse
      rw [if_pos h15, parse15_eq] at hparse
      by_contra hne
      rw [if_neg hne] at hparse
      cases hparse
    rw [if_pos hfmt] at hv
    refine ⟨by simp [record15, h15], ?_, ?_, ?_⟩
    · intro hb
      have hb' : isValidBirthday now (ascii "19" ++ slice id 6 12) = false := hb
      rw [hv, hb']; simp
    · intro _ h18; omega
    · intro hb _
      have hb' : isValidBirthday now (ascii "19" ++ slice id 6 12) = true := hb
      rw [hv, hb']; simp
  · subst hp
    have h15 : ¬ id.length = 15 := by omega
    have hv := Validate_eq_18 now id h18
    have hfmt : (slice id 0 17).all isDigit = true ∧ okCheck (byteAt id 17) = true := by
      unfold parseID at hparse
      rw [if_neg h15, if_pos h18, parse18_eq id (by omega)] at hparse
      by_contra hne
      rw [not_and_or] at hne
      rcases hne with hne | hne
      · rw [if_neg hne] at hparse; cases hparse
      · split_ifs at hparse
    rw [if_pos hfmt] at hv
    refine ⟨by simp [record18, h15], ?_, ?_, ?_⟩
    · intro hb
      have hb' : isValidBirthday now (slice id 6 14) = false := hb
      rw [hv, hb']; simp
    · intro hb _
      have hb' : isValidBirthday now (slice id 6 14) = true := hb
      rw [hv, hb']
      simp only [if_true]
      constructor
      · constructor
        · intro h
          by_contra hc
          have hc' : ¬ (normCheck (byteAt id 17) ≠ calcCheckBit (slice id 0 17)) := by
            intro h'; exact h' (hc ▸ rfl)
          rw [if_neg hc'] at h
          cases h
        · intro h
          have h' : normCheck (byteAt id 17) ≠ calcCheckBit (slice id 0 17) := fun e => h e.symm
          rw [if_pos h']
      · intro h
        have h' : ¬ (normCheck (byteAt id 17) ≠ calcCheckBit (slice id 0 17)) := by
          intro e; exact e h.symm
        rw [if_neg h']
    · intro _ h15'; omega

/-- Witness of C1 on the 18-character number `11010519491231002X`. -/
theorem Validate_pipeline_witness :
    parseID (ascii "11010519491231002X") = .ok (record18 (ascii "11010519491231002X")) ∧
      Validate ⟨2024, 6, 15⟩ (ascii "11010519491231002X") = .ok () :=
  ⟨by rfl,
    ((Validate_pipeline ⟨2024, 6, 15⟩ (ascii "11010519491231002X")
      (record18 (ascii "11010519491231002X")) (by rfl)).2.2.1 (by rfl) (by rfl)).2 (by rfl)⟩

theorem IsValid_iff (now : Date) (id : Str) :
    IsValid now id = true ↔ Validate now id = .ok () := by
  unfold IsValid
  cases h : Validate now id with
  | error e => simp
  | ok u => simp

theorem all_isDigit_false_iff (l : List Nat) :
    ¬ (l.all isDigit = true) ↔ ∃ c ∈ l, isDigit c = false := by
  simp [List.all_eq_true]

theorem slice_all_isDigit_false_iff (s : Str) (n : Nat) (h : n ≤ s.length) :
    ¬ ((slice s 0 n).all isDigit = true) ↔ ∃ i, i < n ∧ isDigit (byteAt s i) = false := by
  have := range_all_take isDigit s n h
  simp only [slice, List.drop_zero]
  rw [← this]
  simp [List.all_eq_true]

/-- C2: `Validate` answers `InvalidLength` exactly on the strings whose length is
neither 15 nor 18, and `InvalidFormat` exactly on the 15-character strings with a
character that is not a digit and on the 18-character strings with a non-digit
among positions 0..16 or a last character that is not a digit, `X` (88) or `x`
(120); `IsValid` is false on all of them; `"12345"` and `"12345678901234567A"`
are instances. -/
theorem Validate_length_format (now : Date) (id : Str) :
    (Validate now id = .error .InvalidLength ↔ id.length ≠ 15 ∧ id.length ≠ 18) ∧
    (Validate now id = .error .InvalidFormat ↔
      (id.length = 15 ∧ ∃ c ∈ id, isDigit c = false) ∨
      (id.length = 18 ∧
        ((∃ i, i < 17 ∧ isDigit (byteAt id i) = false) ∨
          ¬ (isDigit (byteAt id 17) = true ∨ byteAt id 17 = 88 ∨ byteAt id 17 = 120)))) ∧
    (Validate now id = .error .InvalidLength ∨ Validate now id = .error .InvalidFormat →
      IsValid now id = false) ∧
    Validate now (ascii "12345") = .error .InvalidLength ∧
    IsValid now (ascii "12345") = false ∧
    Validate now (ascii "12345678901234567A") = .error .InvalidFormat ∧
    IsValid now (ascii "12345678901234567A") = false := by
  have hA : Validate now (ascii "12345") = .error .InvalidLength :=
    Validate_eq_other now _ (by decide) (by decide)
  have hB : Validate now (ascii "12345678901234567A") = .error .InvalidFormat := by
    rw [Validate_eq_18 now _ (by decide)]
    exact if_neg (by decide)
  have hI : ∀ s e, Validate now s = .error e → IsValid now s = false := by
    intro s e h
    unfold IsValid; rw [h]
  refine ⟨?_, ?_, ?_, hA, hI _ _ hA, hB, hI _ _ hB⟩
  · by_cases h15 : id.length = 15
    · rw [Validate_eq_15 now id h15]
      constructor
      · intro h; split_ifs at h <;> simp at h
      · intro h; exact absurd h15 h.1
    · by_cases h18 : id.length = 18
      · rw [Validate_eq_18 now id h18]
        constructor
        · intro h; split_ifs at h <;> simp at h
        · intro h; exact absurd h18 h.2
      · rw [Validate_eq_other now id h15 h18]
        exact ⟨fun _ => ⟨h15, h18⟩, fun _ => rfl⟩
  · by_cases h15 : id.length = 15
    · have h18 : ¬ id.length = 18 := by omega
      rw [Validate_eq_15 now id h15, ← all_isDigit_false_iff]
      constructor
      · intro h
        left
        refine ⟨h15, ?_⟩
        intro hd
        rw [if_pos hd] at h
        split_ifs at h
        simp at h
      · rintro (⟨_, h⟩ | ⟨h, _⟩)
        · rw [if_neg h]
        · exact absurd h h18
    · by_cases h18 : id.length = 18
      · rw [Validate_eq_18 now id h18, ← slice_all_isDigit_false_iff id 17 (by omega)]
        have hok : okCheck (byteAt id 17) = true ↔
            (isDigit (byteAt id 17) = true ∨ byteAt id 17 = 88 ∨ byteAt id 17 = 120) := by
          simp [okCheck, or_assoc]
        constructor
        · intro h
          right
          refine ⟨h18, ?_⟩
          by_contra hne
          rw [not_or, not_not, not_not, ← hok] at hne
          rw [if_pos hne] at h
          split_ifs at h <;> simp at h
        · rintro (⟨h, _⟩ | ⟨_, h⟩)
          · exact absurd h h15
          · rw [← hok] at h
            have hne : ¬ ((slice id 0 17).all isDigit = true ∧ okCheck (byteAt id 17) = true) := by
              rintro ⟨h1, h2⟩
              rcases h with h | h
              · exact h h1
              · exact h h2
            rw [if_neg hne]
      · rw [Validate_eq_other now id h15 h18]
        constructor
        · intro h; cases h
        · rintro (⟨h, _⟩ | ⟨h, _⟩)
          · exact absurd h h15
          · exact absurd h h18
  · rintro (h | h)
    · exact hI _ _ h
    · exact hI _ _ h

theorem calcCheckBit_char (body : Str) (hlen : body.length = 17) :
    ∃ c, calcCheckBit body = [c] ∧ okCheck c = true ∧ normCheck c = [c] := by
  unfold calcCheckBit
  rw [if_neg (by simp [hlen])]
  simp only []
  generalize (List.range 17).foldl
      (fun sum i => sum + ((byteAt body i + 256 - 48) % 256) * weights.getD i 0) 0 = sum
  have hlt : sum % 11 < 11 := Nat.mod_lt _ (by decide)
  generalize sum % 11 = k at hlt
  interval_cases k <;> exact ⟨_, rfl, by decide, by decide⟩

/-- C3: in a valid 18-character number, putting any of the eleven check
characters `0`..`9`, `x` other than the number's own (with `X` read as `x`) in
the last place makes `Validate` fail with `InvalidChecksum`. -/
theorem Validate_wrong_check (now : Date) (n : Str) (c : Nat)
    (hlen : n.length = 18) (hvalid : Validate now n = .ok ())
    (hc : c ∈ ascii "0123456789x") (hne : [c] ≠ normCheck (byteAt n 17)) :
    Validate now (slice n 0 17 ++ [c]) = .error .InvalidChecksum := by
  have hbody : (slice n 0 17).length = 17 := by
    rw [slice_length n 0 17 (by omega)]
  have hn := eq_slice_append_last n 17 hlen
  rw [hn, Validate_append now _ _ hbody] at hvalid
  rw [Validate_append now _ _ hbody]
  have hcn : okCheck c = true ∧ normCheck c = [c] := by
    simp only [ascii, List.map, List.mem_cons, List.mem_nil_iff, or_false] at hc
    rcases hc with h | h | h | h | h | h | h | h | h | h | h <;> subst h <;> decide
  split_ifs at hvalid with h1 h2 h3
  rw [if_pos ⟨h1.1, hcn.1⟩, if_pos h2, hcn.2]
  have h3' : normCheck (byteAt n 17) = calcCheckBit (slice n 0 17) := by
    by_contra h; exact h3 h
  rw [if_pos (by rw [← h3']; exact hne)]

/-- Witness of C3: `11010519491231002X` with the last character replaced by `0`. -/
theorem Validate_wrong_check_witness :
    Validate ⟨2024, 6, 15⟩ (ascii "11010519491231002X") = .ok () ∧
      Validate ⟨2024, 6, 15⟩ (ascii "110105194912310020") = .error .InvalidChecksum :=
  ⟨by rfl, Validate_wrong_check ⟨2024, 6, 15⟩ (ascii "11010519491231002X") 48
    (by rfl) (by rfl) (by decide) (by decide)⟩


/-! ## Claims on the upgrade to 18 characters -/

theorem UpgradeTo18_eq_15 (now : Date) (id : Str) (hlen : id.length = 15) :
    UpgradeTo18 now id =
      if id.all isDigit = true then
        (if isValidBirthday now (ascii "19" ++ slice id 6 12) = true then
          .ok (body15 id ++ calcCheckBit (body15 id))
         else .error .InvalidBirthday)
      else .error .InvalidFormat := by
  unfold UpgradeTo18 parseID
  have h18 : ¬ id.length = 18 := by omega
  rw [if_neg h18, if_neg (by simp [hlen]), if_pos hlen, parse15_eq]
  cases h : id.all isDigit
  · simp
  · cases hb : isValidBirthday now (ascii "19" ++ slice id 6 12) <;>
      simp [record15, hb, body15]

theorem exists_cons_of_length (l : Str) (k : Nat) (h : l.length = k + 1) :
    ∃ a t, l = a :: t ∧ t.length = k := by
  cases l with
  | nil => simp at h
  | cons a t => exact ⟨a, t, rfl, by simpa using h⟩

theorem length15_cases (n : Str) (h : n.length = 15) :
    ∃ a0 a1 a2 a3 a4 a5 a6 a7 a8 a9 a10 a11 a12 a13 a14 : Nat,
      n = [a0, a1, a2, a3, a4, a5, a6, a7, a8, a9, a10, a11, a12, a13, a14] := by
  obtain ⟨a0, t0, rfl, h0⟩ := exists_cons_of_length _ _ h
  obtain ⟨a1, t1, rfl, h1⟩ := exists_cons_of_length _ _ h0
  obtain ⟨a2, t2, rfl, h2⟩ := exists_cons_of_length _ _ h1
  obtain ⟨a3, t3, rfl, h3⟩ := exists_cons_of_length _ _ h2
  obtain ⟨a4, t4, rfl, h4⟩ := exists_cons_of_length _ _ h3
  obtain ⟨a5, t5, rfl, h5⟩ := exists_cons_of_length _ _ h4
  obtain ⟨a6, t6, rfl, h6⟩ := exists_cons_of_length _ _ h5
  obtain ⟨a7, t7, rfl, h7⟩ := exists_cons_of_length _ _ h6
  obtain ⟨a8, t8, rfl, h8⟩ := exists_cons_of_length _ _ h7
  obtain ⟨a9, t9, rfl, h9⟩ := exists_cons_of_length _ _ h8
  obtain ⟨a10, t10, rfl, h10⟩ := exists_cons_of_length _ _ h9
  obtain ⟨a11, t11, rfl, h11⟩ := exists_cons_of_length _ _ h10
  obtain ⟨a12, t12, rfl, h12⟩ := exists_cons_of_length _ _ h11
  obtain ⟨a13, t13, rfl, h13⟩ := exists_cons_of_length _ _ h12
  obtain ⟨a14, t14, rfl, h14⟩ := exists_cons_of_length _ _ h13
  have : t14 = [] := List.length_eq_zero.mp h14
  subst this
  exact ⟨a0, a1, a2, a3, a4, a5, a6, a7, a8, a9, a10, a11, a12, a13, a14, rfl⟩

theorem body15_facts (n : Str) (hlen : n.length = 15) :
    (body15 n).length = 17 ∧
    ((body15 n).all isDigit = n.all isDigit) ∧
    slice (body15 n) 6 14 = ascii "19" ++ slice n 6 12 ∧
    body15 n = slice n 0 6 ++ ascii "19" ++ slice n 6 15 ∧
    slice (body15 n) 0 6 = slice n 0 6 ∧
    slice (body15 n) 6 8 = ascii "19" ∧
    slice (body15 n) 8 14 = slice n 6 12 ∧
    slice (body15 n) 14 17 = slice n 12 15 := by
  obtain ⟨a0, a1, a2, a3, a4, a5, a6, a7, a8, a9, a10, a11, a12, a13, a14, rfl⟩ :=
    length15_cases n hlen
  refine ⟨rfl, ?_, rfl, rfl, rfl, rfl, rfl, rfl⟩
  have h1 : isDigit 49 = true := by decide
  have h9 : isDigit 57 = true := by decide
  simp only [body15, slice, ascii, List.take, List.drop, List.map, List.cons_append,
    List.nil_append, List.all_cons, List.all_nil, h1, h9, Bool.true_and, Bool.and_true,
    Char.toNat, Bool.and_assoc]
  rfl
theorem Validate_ok_15 (now : Date) (n : Str) (hlen : n.length = 15)
    (hvalid : Validate now n = .ok ()) :
    n.all isDigit = true ∧ isValidBirthday now (ascii "19" ++ slice n 6 12) = true := by
  rw [Validate_eq_15 now n hlen] at hvalid
  split_ifs at hvalid with h1 h2
  exact ⟨h1, h2⟩

theorem Validate_body15 (now : Date) (n : Str) (hlen : n.length = 15)
    (hvalid : Validate now n = .ok ()) :
    Validate now (body15 n ++ calcCheckBit (body15 n)) = .ok () := by
  obtain ⟨hd, hb⟩ := Validate_ok_15 now n hlen hvalid
  obtain ⟨h17, hall, hslice, -⟩ := body15_facts n hlen
  obtain ⟨c, hc, hok, hnorm⟩ := calcCheckBit_char (body15 n) h17
  rw [hc, Validate_append now _ _ h17, if_pos ⟨by rw [hall]; exact hd, hok⟩, hslice, if_pos hb,
    hnorm, hc, if_neg (by simp)]

/-- C5: for a valid 15-character number, `UpgradeTo18` succeeds, its result has
18 characters and `Validate` accepts the result. -/
theorem UpgradeTo18_valid (now : Date) (n : Str) (hlen : n.length = 15)
    (hvalid : Validate now n = .ok ()) :
    ∃ r, UpgradeTo18 now n = .ok r ∧ r.length = 18 ∧ Validate now r = .ok () := by
  obtain ⟨hd, hb⟩ := Validate_ok_15 now n hlen hvalid
  obtain ⟨h17, -⟩ := body15_facts n hlen
  obtain ⟨c, hc, -⟩ := calcCheckBit_char (body15 n) h17
  refine ⟨body15 n ++ calcCheckBit (body15 n), ?_, ?_, Validate_body15 now n hlen hvalid⟩
  · rw [UpgradeTo18_eq_15 now n hlen, if_pos hd, if_pos hb]
  · rw [hc]; simp [h17]

/-- Witness of C5 on the 15-character number `110105491231002`. -/
theorem UpgradeTo18_valid_witness :
    Validate ⟨2024, 6, 15⟩ (ascii "110105491231002") = .ok () ∧
      ∃ r, UpgradeTo18 ⟨2024, 6, 15⟩ (ascii "110105491231002") = .ok r ∧ r.length = 18 ∧
        Validate ⟨2024, 6, 15⟩ r = .ok () :=
  ⟨by rfl, UpgradeTo18_valid ⟨2024, 6, 15⟩ (ascii "110105491231002") (by rfl) (by rfl)⟩

/-- C6: for a valid 15-character number `n`, `UpgradeTo18 n` is
`n[0:6] ++ "19" ++ n[6:15]` followed by `calcCheckBit` of that body: positions
0..5 keep the region code, 6..7 are `19`, 8..13 keep the two-digit year, month
and day, 14..16 keep the order code. -/
theorem UpgradeTo18_shape (now : Date) (n : Str) (hlen : n.length = 15)
    (hvalid : Validate now n = .ok ()) :
    UpgradeTo18 now n =
        .ok (slice n 0 6 ++ ascii "19" ++ slice n 6 15 ++
          calcCheckBit (slice n 0 6 ++ ascii "19" ++ slice n 6 15)) ∧
    ∀ r, UpgradeTo18 now n = .ok r →
      slice r 0 6 = slice n 0 6 ∧ slice r 6 8 = ascii "19" ∧
        slice r 8 14 = slice n 6 12 ∧ slice r 14 17 = slice n 12 15 := by
  obtain ⟨hd, hb⟩ := Validate_ok_15 now n hlen hvalid
  obtain ⟨h17, -, -, hbody, s1, s2, s3, s4⟩ := body15_facts n hlen
  have hu : UpgradeTo18 now n = .ok (body15 n ++ calcCheckBit (body15 n)) := by
    rw [UpgradeTo18_eq_15 now n hlen, if_pos hd, if_pos hb]
  refine ⟨by rw [hu, hbody], ?_⟩
  intro r hr
  rw [hu] at hr
  have hr' : r = body15 n ++ calcCheckBit (body15 n) := (Except.ok.inj hr).symm
  subst hr'
  rw [slice_append_left _ _ 0 6 (by omega), slice_append_left _ _ 6 8 (by omega),
    slice_append_left _ _ 8 14 (by omega), slice_append_left _ _ 14 17 (by omega)]
  exact ⟨s1, s2, s3, s4⟩

/-- Witness of C6 on the 15-character number `110105491231002`. -/
theorem UpgradeTo18_shape_witness :
    Validate ⟨2024, 6, 15⟩ (ascii "110105491231002") = .ok () ∧
      UpgradeTo18 ⟨2024, 6, 15⟩ (ascii "110105491231002") = .ok (ascii "11010519491231002x") :=
  ⟨by rfl, (UpgradeTo18_shape ⟨2024, 6, 15⟩ (ascii "110105491231002") (by rfl) (by rfl)).1⟩

/-- C7: `UpgradeTo18` is idempotent: a result `r` of `UpgradeTo18` is returned
unchanged by a second call; and every 18-character input is returned as it is,
without error. -/
theorem UpgradeTo18_idempotent (now : Date) (s r : Str) (h : UpgradeTo18 now s = .ok r) :
    UpgradeTo18 now r = .ok r ∧ ∀ t : Str, t.length = 18 → UpgradeTo18 now t = .ok t := by
  have h18 : ∀ t : Str, t.length = 18 → UpgradeTo18 now t = .ok t := by
    intro t ht
    unfold UpgradeTo18
    rw [if_pos ht]
  refine ⟨?_, h18⟩
  by_cases hs : s.length = 18
  · rw [h18 s hs] at h
    have : r = s := (Except.ok.inj h).symm
    subst this
    exact h18 r hs
  · by_cases h15 : s.length = 15
    · rw [UpgradeTo18_eq_15 now s h15] at h
      split_ifs at h
      have hr : r = body15 s ++ calcCheckBit (body15 s) := (Except.ok.inj h).symm
      obtain ⟨h17, -⟩ := body15_facts s h15
      obtain ⟨c, hc, -⟩ := calcCheckBit_char (body15 s) h17
      apply h18
      rw [hr, hc]; simp [h17]
    · unfold UpgradeTo18 at h
      rw [if_neg hs, if_pos h15] at h
      cases h

/-- Witness of C7 on the 15-character number `110105491231002`. -/
theorem UpgradeTo18_idempotent_witness :
    UpgradeTo18 ⟨2024, 6, 15⟩ (ascii "110105491231002") = .ok (ascii "11010519491231002x") ∧
      UpgradeTo18 ⟨2024, 6, 15⟩ (ascii "11010519491231002x") = .ok (ascii "11010519491231002x") :=
  ⟨by rfl, (UpgradeTo18_idempotent ⟨2024, 6, 15⟩ (ascii "110105491231002")
    (ascii "11010519491231002x") (by rfl)).1⟩


/-! ## Claims on region names -/

theorem digitsVal_foldl_lt (s : Str) (acc : Nat) (h : s.all isDigit = true) :
    s.foldl (fun n ch => n * 10 + (ch - 48)) acc < (acc + 1) * 10 ^ s.length := by
  induction s generalizing acc with
  | nil => simp
  | cons c t ih =>
    simp only [List.all_cons, Bool.and_eq_true] at h
    have hc : c - 48 ≤ 9 := by
      have := h.1; simp [isDigit] at this; omega
    have := ih (acc * 10 + (c - 48)) h.2
    simp only [List.foldl_cons, List.length_cons, pow_succ]
    calc _ < (acc * 10 + (c - 48) + 1) * 10 ^ t.length := this
      _ ≤ ((acc + 1) * 10) * 10 ^ t.length := by
        apply Nat.mul_le_mul_right; omega
      _ = (acc + 1) * (10 ^ t.length * 10) := by ring

theorem digitsVal_lt (s : Str) (h : s.all isDigit = true) : digitsVal s < 10 ^ s.length := by
  have := digitsVal_foldl_lt s 0 h
  simpa [digitsVal] using this

theorem GetArea_eq (g : Gazetteer) (s : Str) (hlen : s.length = 6) (hd : s.all isDigit = true) :
    GetArea g s = getAreaByCode g (digitsVal s) := by
  have hs : slice s 0 6 = s := by
    simp [slice, ← hlen]
  have hlt : digitsVal s < 2 ^ 32 := by
    have := digitsVal_lt s hd
    rw [hlen] at this
    omega
  have hne : s ≠ [] := by
    intro h; rw [h] at hlen; simp at hlen
  have hp : parseUint32 s = some (digitsVal s) := by
    unfold parseUint32
    rw [if_pos ⟨hne, hd, hlt⟩]
  unfold GetArea
  rw [if_neg (by omega), hs, hp]

theorem getAreaByCode_eq (g : Gazetteer) (code : Nat) :
    getAreaByCode g code =
      if getAddressName g (code / 10000 * 10000) = "" then
        (match GetHistoryAreaInfo g code with
          | some info => .ok info
          | none => .error (.UnknownRegion code))
      else .ok (tierArea g code) := by
  rfl
theorem getAddressName_eq_empty_iff (g : Gazetteer) (code : Nat) :
    getAddressName g code = "" ↔
      mapGet g.addressCode code = "" ∧
        (GetAddressCodeTimeline g code ≠ [] → timelineName g code = "") ∧
        (GetAddressCodeTimeline g code = [] → GetHistoryAddress g code = "") := by
  unfold getAddressName timelineName
  by_cases h : mapGet g.addressCode code = ""
  · simp only [h, ne_eq, not_true_eq_false, if_false, true_and]
    cases GetAddressCodeTimeline g code with
    | nil => simp
    | cons e t => simp
  · simp [h]

theorem emptyInAllSources_resolve (g : Gazetteer) (code : Nat)
    (h : emptyInAllSources g code) : getAddressName g code = "" := by
  rw [getAddressName_eq_empty_iff]
  exact ⟨h.1, fun _ => h.2.1, fun _ => h.2.2⟩

/-- C8, as stated, fails: in `shadowGazetteer` the lookup of `990101` fails,
although the snapshot holds the name `P` for its province code 990000, which a
nameless timeline entry hides. -/
theorem GetArea_fails_counterexample :
    GetArea shadowGazetteer (ascii "990101") = .error (.UnknownRegion 990101) ∧
      GetHistoryAddress shadowGazetteer (990101 / 10000 * 10000) = "P" ∧
      ¬ (emptyInAllSources shadowGazetteer (990101 / 10000 * 10000) ∧
          GetHistoryAreaInfo shadowGazetteer 990101 = none) := by
  refine ⟨by rfl, by rfl, ?_⟩
  rintro ⟨⟨-, -, h⟩, -⟩
  revert h
  decide

/-- C8, amended: for a 6-digit region code `s` of value `c`, `GetArea` fails, and
then with `UnknownRegion c`, exactly when the name of `c / 10000 * 10000`
resolves to the empty string (the current name is empty, and the first timeline
entry has no name or, without a timeline, the snapshot gives no name) and the
snapshot has no entry for `c`; with an empty province name and a snapshot entry
for `c`, it returns that entry. A code whose province code is in none of the
three sources and which has no snapshot entry fails, as 999999 does. -/
theorem GetArea_fails_iff (g : Gazetteer) (s : Str) (hlen : s.length = 6)
    (hd : s.all isDigit = true) :
    ((∃ e, GetArea g s = .error e) ↔
        getAddressName g (digitsVal s / 10000 * 10000) = "" ∧
          GetHistoryAreaInfo g (digitsVal s) = none) ∧
    (∀ e, GetArea g s = .error e → e = .UnknownRegion (digitsVal s)) ∧
    (getAddressName g (digitsVal s / 10000 * 10000) = "" ↔
        mapGet g.addressCode (digitsVal s / 10000 * 10000) = "" ∧
          (GetAddressCodeTimeline g (digitsVal s / 10000 * 10000) ≠ [] →
            timelineName g (digitsVal s / 10000 * 10000) = "") ∧
          (GetAddressCodeTimeline g (digitsVal s / 10000 * 10000) = [] →
            GetHistoryAddress g (digitsVal s / 10000 * 10000) = "")) ∧
    (∀ info, getAddressName g (digitsVal s / 10000 * 10000) = "" →
        GetHistoryAreaInfo g (digitsVal s) = some info → GetArea g s = .ok info) ∧
    (emptyInAllSources g (digitsVal s / 10000 * 10000) →
        GetHistoryAreaInfo g (digitsVal s) = none →
        GetArea g s = .error (.UnknownRegion (digitsVal s))) ∧
    (emptyInAllSources g 990000 → GetHistoryAreaInfo g 999999 = none →
        GetArea g (ascii "999999") = .error (.UnknownRegion 999999)) := by
  have key : ∀ (t : Str), t.length = 6 → t.all isDigit = true →
      getAddressName g (digitsVal t / 10000 * 10000) = "" →
      GetHistoryAreaInfo g (digitsVal t) = none →
      GetArea g t = .error (.UnknownRegion (digitsVal t)) := by
    intro t ht1 ht2 hp hh
    rw [GetArea_eq g t ht1 ht2, getAreaByCode_eq, if_pos hp, hh]
  rw [GetArea_eq g s hlen hd, getAreaByCode_eq]
  refine ⟨?_, ?_, getAddressName_eq_empty_iff g _, ?_, ?_, ?_⟩
  · by_cases hp : getAddressName g (digitsVal s / 10000 * 10000) = ""
    · rw [if_pos hp]
      cases hh : GetHistoryAreaInfo g (digitsVal s) with
      | none => simp [hp]
      | some info => simp
    · rw [if_neg hp]; simp [hp]
  · intro e he
    by_cases hp : getAddressName g (digitsVal s / 10000 * 10000) = ""
    · rw [if_pos hp] at he
      cases hh : GetHistoryAreaInfo g (digitsVal s) with
      | none => rw [hh] at he; exact (Except.error.inj he).symm
      | some info => rw [hh] at he; cases he
    · rw [if_neg hp] at he; cases he
  · intro info hp hh
    rw [if_pos hp, hh]
  · intro hp hh
    rw [if_pos (emptyInAllSources_resolve g _ hp), hh]
  · intro hp hh
    exact key (ascii "999999") (by rfl) (by rfl) (emptyInAllSources_resolve g _ hp) hh

/-- Witness of C8 (amended): in a table without any entry, `999999` fails. -/
theorem GetArea_fails_iff_witness :
    (∃ e, GetArea ⟨[], [], []⟩ (ascii "999999") = .error e) ↔
      getAddressName ⟨[], [], []⟩ (digitsVal (ascii "999999") / 10000 * 10000) = "" ∧
        GetHistoryAreaInfo ⟨[], [], []⟩ (digitsVal (ascii "999999")) = none :=
  (GetArea_fails_iff ⟨[], [], []⟩ (ascii "999999") (by rfl) (by rfl)).1

/-- C9, as stated, fails: in `beijingGazetteer` the code 110103 is in the snapshot
only, with the triple (北京市, 市辖区, 崇文区), and `GetArea` returns
(北京市, 北京市, 崇文区), the city being the current name of 110100. -/
theorem GetArea_history_counterexample :
    GetHistoryAreaInfo beijingGazetteer 110103 =
        some { Province := "北京市", City := "市辖区", District := "崇文区" } ∧
      beijingGazetteer.addressCode.lookup 110103 = none ∧
      GetArea beijingGazetteer (ascii "110103") =
        .ok { Province := "北京市", City := "北京市", District := "崇文区" } ∧
      GetArea beijingGazetteer (ascii "110103") ≠
        .ok { Province := "北京市", City := "市辖区", District := "崇文区" } := by
  refine ⟨by rfl, by rfl, by rfl, by decide⟩

/-- C9, amended: for a 6-digit region code of value `c` that the snapshot holds
and the current table does not, `GetArea` succeeds; it returns the snapshot's
triple when the name of `c / 10000 * 10000` resolves to the empty string, and
otherwise the triple assembled tier by tier, in which the name resolved for `c`
itself is, when `c` has no timeline, the most specific non-empty name of the
snapshot entry. -/
theorem GetArea_history (g : Gazetteer) (s : Str) (info : AreaInfo) (hlen : s.length = 6)
    (hd : s.all isDigit = true) (hhist : GetHistoryAreaInfo g (digitsVal s) = some info)
    (hcur : g.addressCode.lookup (digitsVal s) = none) :
    (∃ a, GetArea g s = .ok a) ∧
    (getAddressName g (digitsVal s / 10000 * 10000) = "" → GetArea g s = .ok info) ∧
    (getAddressName g (digitsVal s / 10000 * 10000) ≠ "" →
        GetArea g s = .ok (tierArea g (digitsVal s))) ∧
    (GetAddressCodeTimeline g (digitsVal s) = [] →
        getAddressName g (digitsVal s) = mostSpecific info) := by
  rw [GetArea_eq g s hlen hd, getAreaByCode_eq]
  refine ⟨?_, ?_, ?_, ?_⟩
  · by_cases hp : getAddressName g (digitsVal s / 10000 * 10000) = ""
    · rw [if_pos hp, hhist]; exact ⟨info, rfl⟩
    · rw [if_neg hp]; exact ⟨_, rfl⟩
  · intro hp; rw [if_pos hp, hhist]
  · intro hp; rw [if_neg hp]
  · intro ht
    have hm : mapGet g.addressCode (digitsVal s) = "" := by
      unfold mapGet; rw [hcur]; rfl
    unfold getAddressName GetHistoryAddress
    simp only [hm, ne_eq, not_true_eq_false, if_false, ht, hhist, mostSpecific]

/-- Witness of C9 (amended) on `beijingGazetteer` and 110103. -/
theorem GetArea_history_witness :
    GetArea beijingGazetteer (ascii "110103") =
      .ok (tierArea beijingGazetteer (digitsVal (ascii "110103"))) :=
  (GetArea_history beijingGazetteer (ascii "110103")
    { Province := "北京市", City := "市辖区", District := "崇文区" }
    (by rfl) (by rfl) (by rfl) (by rfl)).2.2.1 (by decide)

/-- C10: for a 6-digit region code of value `c` whose province-level name resolves
to a non-empty string, `GetArea` returns the resolved name of `c / 10000 * 10000`
as province, the resolved name of `c / 100 * 100` as city when that code is not
the province code and `""` otherwise, the resolved name of `c` as district when
`c` is neither the city code nor the province code and `""` otherwise. A
province-tier code (last four digits zero) has empty city and district; a
city-tier code (last two digits zero) has an empty district. -/
theorem GetArea_tiers (g : Gazetteer) (s : Str) (hlen : s.length = 6)
    (hd : s.all isDigit = true)
    (hprov : getAddressName g (digitsVal s / 10000 * 10000) ≠ "") :
    GetArea g s = .ok
      { Province := getAddressName g (digitsVal s / 10000 * 10000)
        City :=
          if digitsVal s / 100 * 100 ≠ digitsVal s / 10000 * 10000 then
            getAddressName g (digitsVal s / 100 * 100)
          else ""
        District :=
          if digitsVal s ≠ digitsVal s / 100 * 100 ∧ digitsVal s ≠ digitsVal s / 10000 * 10000
          then getAddressName g (digitsVal s)
          else "" } ∧
    (digitsVal s % 10000 = 0 →
        ∃ a, GetArea g s = .ok a ∧ a.City = "" ∧ a.District = "") ∧
    (digitsVal s % 100 = 0 → ∃ a, GetArea g s = .ok a ∧ a.District = "") := by
  have h : GetArea g s = .ok (tierArea g (digitsVal s)) := by
    rw [GetArea_eq g s hlen hd, getAreaByCode_eq, if_neg hprov]
  refine ⟨h, ?_, ?_⟩
  · intro hz
    refine ⟨_, h, ?_, ?_⟩
    · have : digitsVal s / 100 * 100 = digitsVal s / 10000 * 10000 := by omega
      simp [tierArea, this]
    · have : digitsVal s = digitsVal s / 10000 * 10000 := by omega
      simp only [tierArea]
      rw [if_neg]
      rintro ⟨-, h2⟩
      exact h2 this
  · intro hz
    refine ⟨_, h, ?_⟩
    have : digitsVal s = digitsVal s / 100 * 100 := by omega
    simp only [tierArea]
    rw [if_neg]
    rintro ⟨h1, -⟩
    exact h1 this

/-- Witness of C10: the province-tier code 310000 of `shanghaiGazetteer`. -/
theorem GetArea_tiers_witness :
    GetArea shanghaiGazetteer (ascii "310000") =
      .ok { Province := "上海市", City := "", District := "" } :=
  (GetArea_tiers shanghaiGazetteer (ascii "310000") (by rfl) (by rfl) (by decide)).1


/-! ## Lemmas on generation -/

theorem padDigits_length (w n : Nat) : (padDigits w n).length = w := by
  induction w generalizing n with
  | zero => rfl
  | succ w ih => simp [padDigits, ih]

theorem padDigits_all_digit (w n : Nat) : (padDigits w n).all isDigit = true := by
  induction w generalizing n with
  | zero => rfl
  | succ w ih =>
    have h : isDigit (48 + n % 10) = true := by
      simp [isDigit]; omega
    simp only [padDigits, List.all_append, ih, List.all_cons, h, List.all_nil, Bool.and_self]

theorem digitsVal_append_one (a : Str) (c : Nat) :
    digitsVal (a ++ [c]) = digitsVal a * 10 + (c - 48) := by
  simp [digitsVal, List.foldl_append]

theorem digitsVal_padDigits (w n : Nat) : digitsVal (padDigits w n) = n % 10 ^ w := by
  induction w generalizing n with
  | zero => simp [padDigits, digitsVal, Nat.mod_one]
  | succ w ih =>
    rw [padDigits, digitsVal_append_one, ih, pow_succ]
    have h1 : 48 + n % 10 - 48 = n % 10 := by omega
    rw [h1, Nat.mul_comm (10 ^ w) 10, Nat.mod_mul]
    ring

theorem padDigits_zero (w : Nat) : padDigits w 0 = List.replicate w 48 := by
  induction w with
  | zero => rfl
  | succ w ih =>
    simp only [padDigits, Nat.zero_div, ih, Nat.zero_mod, Nat.add_zero]
    rw [← List.replicate_succ', ]

theorem zeroPad_decimalAux (w fuel n : Nat) (hf : n < fuel) (hn : n < 10 ^ (w + 1)) :
    zeroPad (w + 1) (decimalAux fuel n) = padDigits (w + 1) n := by
  induction w generalizing fuel n with
  | zero =>
    obtain ⟨f, rfl⟩ : ∃ f, fuel = f + 1 := ⟨fuel - 1, by omega⟩
    have h10 : n < 10 := by simpa using hn
    simp [decimalAux, h10, zeroPad, padDigits, Nat.mod_eq_of_lt h10]
  | succ w ih =>
    obtain ⟨f, rfl⟩ : ∃ f, fuel = f + 1 := ⟨fuel - 1, by omega⟩
    by_cases h10 : n < 10
    · have hz : n / 10 = 0 := by omega
      simp only [decimalAux, if_pos h10, zeroPad, List.length_singleton, padDigits, hz,
        Nat.zero_div, Nat.zero_mod, Nat.add_zero, Nat.mod_eq_of_lt h10]
      have := padDigits_zero w
      simp only [Nat.add_sub_cancel, List.replicate_succ', this, List.append_assoc]
    · have hq : n / 10 < 10 ^ (w + 1) := by
        rw [pow_succ] at hn
        omega
      have hqf : n / 10 < f := by omega
      have := ih f (n / 10) hqf hq
      simp only [decimalAux, if_neg h10]
      rw [padDigits, ← this]
      simp [zeroPad, List.append_assoc]

theorem sprintf0d_eq (w : Nat) (n : Nat) (hw : 0 < w) (hn : n < 10 ^ w) :
    sprintf0d w (n : Int) = padDigits w n := by
  obtain ⟨v, rfl⟩ : ∃ v, w = v + 1 := ⟨w - 1, by omega⟩
  unfold sprintf0d decimal
  rw [if_neg (by omega)]
  simpa using zeroPad_decimalAux v (n + 1) n (by omega) hn

theorem Intn_lt (n : Nat) (rng : Rng) (hn : 0 < n) : (Intn n rng).1 < n := by
  unfold Intn
  cases rng with
  | nil => exact hn
  | cons r rest => exact Nat.mod_lt _ hn

theorem randRange_bounds (min max : Int) (rng : Rng) (h : min ≤ max) :
    min ≤ (randRange min max rng).1 ∧ (randRange min max rng).1 ≤ max := by
  unfold randRange
  by_cases hge : min ≥ max
  · rw [if_pos hge]; simp only []; omega
  · rw [if_neg hge]
    have hpos : 0 < (max - min + 1).toNat := by omega
    have := Intn_lt (max - min + 1).toNat rng hpos
    simp only []
    omega

theorem randRange_ge (min max : Int) (rng : Rng) : min ≤ (randRange min max rng).1 := by
  unfold randRange
  by_cases hge : min ≥ max
  · rw [if_pos hge]
  · rw [if_neg hge]; simp only []; omega

theorem randRange_le (min max : Int) (rng : Rng) :
    (randRange min max rng).1 ≤ max ∨ (randRange min max rng).1 = min := by
  by_cases h : min ≤ max
  · exact Or.inl (randRange_bounds min max rng h).2
  · right
    unfold randRange
    rw [if_pos (by omega)]

theorem generateBirthdayCode_fields (now : Date) (birthday : Str) (rng : Rng)
    (hnow : plausibleNow now) :
    ∃ y m d : Int,
      (generateBirthdayCode now birthday rng).1 = sprintf0d 4 y ++ sprintf0d 2 m ++ sprintf0d 2 d ∧
      1900 ≤ y ∧ y ≤ now.year ∧ 1 ≤ m ∧ m ≤ 12 ∧ 1 ≤ d ∧ d ≤ 28 ∧
      (positiveFields birthday →
        y < now.year ∨ (y = now.year ∧ (m < now.month ∨ (m = now.month ∧ d ≤ now.day)))) := by
  obtain ⟨hy1, hy2, hm1, hm2, hd1, hd2⟩ := hnow
  unfold generateBirthdayCode
  lift_lets
  extract_lets d1 m2 d2 y3 m3 d3 given year0 month0 day0 year month1 day1 month day
  refine ⟨year.1, month.1, day.1, rfl, ?_⟩
  have hyear : 1900 ≤ year.1 ∧ year.1 ≤ now.year := by
    simp only [year]
    split_ifs with h
    · have h1 := randRange_ge 1950 ((now.year : Int) - 1) given.2.2.2
      have h2 := randRange_le 1950 ((now.year : Int) - 1) given.2.2.2
      omega
    · simp only []; omega
  have hmonth : 1 ≤ month.1 ∧ month.1 ≤ 12 := by
    simp only [month]
    split_ifs with h
    · exact randRange_bounds 1 12 _ (by omega)
    · simp only []; omega
  have hday : 1 ≤ day.1 ∧ day.1 ≤ 28 := by
    simp only [day]
    split_ifs with h
    · exact randRange_bounds 1 28 _ (by omega)
    · simp only []; omega
  refine ⟨hyear.1, hyear.2, hmonth.1, hmonth.2, hday.1, hday.2, ?_⟩
  intro hpos
  have hgiven : 1 ≤ month0 ∧ 1 ≤ day0 := by
    simp only [month0, day0, given]
    split_ifs with h8 h6 h4
    · exact hpos.1 h8
    · exact ⟨hpos.2 h6, randRange_ge 1 28 _⟩
    · exact ⟨randRange_ge 1 12 _, randRange_ge 1 28 _⟩
    · exact ⟨randRange_ge 1 12 _, randRange_ge 1 28 _⟩
  by_cases hcur : year.1 = now.year
  · right
    refine ⟨hcur, ?_⟩
    have hmonth1 : 1 ≤ month1.1 ∧ month1.1 ≤ now.month := by
      simp only [month1]
      split_ifs with h
      · exact randRange_bounds 1 _ _ (by omega)
      · simp only []
        rw [not_and_or] at h
        omega
    have hmeq : month.1 = month1.1 := by
      simp only [month]
      rw [if_neg (by omega)]
    have hday1 : 1 ≤ day1.1 ∧ (month1.1 = now.month → day1.1 ≤ now.day) := by
      simp only [day1]
      split_ifs with h
      · have := randRange_bounds 1 (now.day : Int) month1.2 (by omega)
        exact ⟨this.1, fun _ => this.2⟩
      · simp only []
        refine ⟨hgiven.2, fun hm => ?_⟩
        by_contra hgt
        exact h ⟨hcur, hm, by omega⟩
    by_cases hlt : month1.1 < now.month
    · left; omega
    · right
      have hm : month1.1 = now.month := by omega
      refine ⟨by omega, ?_⟩
      have hd := hday1.2 hm
      by_cases h28 : day1.1 ≤ 28
      · have : day.1 = day1.1 := by
          simp only [day]
          rw [if_neg (by omega)]
        omega
      · omega
  · left; omega
theorem slice_mid (a b c : Str) : slice (a ++ b ++ c) a.length (a.length + b.length) = b := by
  unfold slice
  rw [List.append_assoc, List.take_append, List.drop_append_of_le_length (by simp)]
  simp

theorem slice_prefix (a b : Str) : slice (a ++ b) 0 a.length = a := by
  simp [slice]

theorem slice_prefix2 (a b c : Str) : slice (a ++ b ++ c) 0 a.length = a := by
  rw [List.append_assoc]; exact slice_prefix a (b ++ c)

theorem slice_suffix (a b : Str) : slice (a ++ b) a.length (a.length + b.length) = b := by
  have := slice_mid a b []
  simpa using this

theorem daysIn_ge (m y : Nat) : 28 ≤ daysIn m y := by
  unfold daysIn
  split_ifs <;> omega

theorem timeParse_padDigits (y m d : Nat) (hy : y ≤ 9999) (hm1 : 1 ≤ m) (hm2 : m ≤ 12)
    (hd1 : 1 ≤ d) (hd2 : d ≤ 28) :
    timeParse (padDigits 4 y ++ padDigits 2 m ++ padDigits 2 d) = some ⟨y, m, d⟩ := by
  have l4 := padDigits_length 4 y
  have l2 := padDigits_length 2 m
  have l2' := padDigits_length 2 d
  have s1 : slice (padDigits 4 y ++ padDigits 2 m ++ padDigits 2 d) 0 4 = padDigits 4 y := by
    have := slice_prefix2 (padDigits 4 y) (padDigits 2 m) (padDigits 2 d)
    rwa [l4] at this
  have s2 : slice (padDigits 4 y ++ padDigits 2 m ++ padDigits 2 d) 4 6 = padDigits 2 m := by
    have := slice_mid (padDigits 4 y) (padDigits 2 m) (padDigits 2 d)
    rwa [l4, l2] at this
  have s3 : slice (padDigits 4 y ++ padDigits 2 m ++ padDigits 2 d) 6 8 = padDigits 2 d := by
    have := slice_suffix (padDigits 4 y ++ padDigits 2 m) (padDigits 2 d)
    rwa [List.length_append, l4, l2, l2'] at this
  have hlen : (padDigits 4 y ++ padDigits 2 m ++ padDigits 2 d).length = 8 := by
    simp [l4, l2, l2']
  have hall : (padDigits 4 y ++ padDigits 2 m ++ padDigits 2 d).all isDigit = true := by
    simp [List.all_append, padDigits_all_digit]
  have v1 : digitsVal (padDigits 4 y) = y := by
    rw [digitsVal_padDigits]; omega
  have v2 : digitsVal (padDigits 2 m) = m := by
    rw [digitsVal_padDigits]; omega
  have v3 : digitsVal (padDigits 2 d) = d := by
    rw [digitsVal_padDigits]; omega
  unfold timeParse
  rw [if_pos ⟨hlen, hall⟩]
  simp only [s1, s2, s3, v1, v2, v3]
  rw [if_pos ⟨hm1, hm2, hd1, le_trans hd2 (daysIn_ge m y)⟩]

theorem isValidBirthday_padDigits (now : Date) (y m d : Nat) (hy1 : 1800 ≤ y) (hy : y ≤ 9999)
    (hm1 : 1 ≤ m) (hm2 : m ≤ 12) (hd1 : 1 ≤ d) (hd2 : d ≤ 28)
    (hle : y < now.year ∨ (y = now.year ∧ (m < now.month ∨ (m = now.month ∧ d ≤ now.day)))) :
    isValidBirthday now (padDigits 4 y ++ padDigits 2 m ++ padDigits 2 d) = true := by
  unfold isValidBirthday
  rw [timeParse_padDigits y m d hy hm1 hm2 hd1 hd2]
  simp only []
  rw [if_neg (by omega)]
  have : Date.After ⟨y, m, d⟩ now = false := by
    simp only [Date.After, Bool.or_eq_false_iff, Bool.and_eq_false_iff, decide_eq_false_iff_not]
    omega
  rw [this]
  rfl

theorem getD_mem_of_lt (l : List Nat) (i : Nat) (h : i < l.length) : l.getD i 0 ∈ l := by
  rw [List.getD_eq_getElem l 0 h]
  exact List.getElem_mem h

theorem getRandomDistrictCode_spec (table : List (Nat × String)) (rng : Rng)
    (hdist : ∃ e ∈ table, e.1 % 100 ≠ 0) :
    ∃ c, c ∈ table.map Prod.fst ∧ c % 100 ≠ 0 ∧
      (getRandomDistrictCode table rng).1 = sprintf0d 6 (c : Int) := by
  unfold getRandomDistrictCode
  lift_lets
  extract_lets districtCodes idx
  have hne : districtCodes.length ≠ 0 := by
    obtain ⟨e, he, hmod⟩ := hdist
    have : e.1 ∈ districtCodes := by
      simp only [districtCodes, List.mem_filter, List.mem_map]
      exact ⟨⟨e, he, rfl⟩, by simpa using hmod⟩
    intro h0
    rw [List.length_eq_zero] at h0
    rw [h0] at this
    cases this
  rw [if_neg hne]
  have hidx : idx.1 < districtCodes.length := Intn_lt _ _ (Nat.pos_of_ne_zero hne)
  have hmem := getD_mem_of_lt districtCodes idx.1 hidx
  have hmem' := hmem
  simp only [districtCodes, List.mem_filter] at hmem'
  exact ⟨_, hmem'.1, by simpa using hmem'.2, rfl⟩

theorem getRandomCodeByPattern_spec (table : List (Nat × String)) (pattern : Pattern) (rng : Rng)
    (hdist : ∃ e ∈ table, e.1 % 100 ≠ 0) :
    ∃ c, c ∈ table.map Prod.fst ∧ c % 100 ≠ 0 ∧
      (getRandomCodeByPattern table pattern rng).1 = sprintf0d 6 (c : Int) := by
  unfold getRandomCodeByPattern
  lift_lets
  extract_lets matched idx
  by_cases hne : matched.length = 0
  · rw [if_pos hne]
    exact getRandomDistrictCode_spec table rng hdist
  · rw [if_neg hne]
    have hidx : idx.1 < matched.length := Intn_lt _ _ (Nat.pos_of_ne_zero hne)
    have hmem := getD_mem_of_lt matched idx.1 hidx
    have hmem' := hmem
    simp only [matched, List.mem_filter, Bool.and_eq_true, decide_eq_true_eq] at hmem'
    exact ⟨_, hmem'.1, hmem'.2.2, rfl⟩

theorem generateAddressCode_spec (g : Gazetteer) (address : String) (rng : Rng)
    (hdist : ∃ e ∈ g.addressCode, e.1 % 100 ≠ 0) :
    ∃ c, c ∈ g.addressCode.map Prod.fst ∧
      (generateAddressCode g address rng).1 = sprintf0d 6 (c : Int) := by
  have hD := getRandomDistrictCode_spec g.addressCode rng hdist
  unfold generateAddressCode
  lift_lets
  extract_lets addressData matchedCode classification
  split_ifs with h1 h2 h3 h4
  · obtain ⟨c, hc, -, he⟩ := hD; exact ⟨c, hc, he⟩
  · obtain ⟨c, hc, -, he⟩ := hD; exact ⟨c, hc, he⟩
  · obtain ⟨c, hc, -, he⟩ := getRandomCodeByPattern_spec g.addressCode
      ⟨sprintf0d 2 (matchedCode / 10000 : Nat), 4⟩ rng hdist
    exact ⟨c, hc, he⟩
  · obtain ⟨c, hc, -, he⟩ := getRandomCodeByPattern_spec g.addressCode
      ⟨sprintf0d 4 (matchedCode / 100 : Nat), 2⟩ rng hdist
    exact ⟨c, hc, he⟩
  · refine ⟨matchedCode, ?_, rfl⟩
    have hm : matchedCode ≠ 0 := h2
    simp only [matchedCode] at hm ⊢
    cases hf : addressData.find? (fun e => e.2 == address) with
    | none => rw [hf] at hm; exact absurd rfl hm
    | some e =>
      simp only []
      exact List.mem_map.mpr ⟨e, List.mem_of_find?_eq_some hf, rfl⟩

theorem generateOrderCode_spec (sex : Int) (rng : Rng) :
    ∃ o : Nat, 1 ≤ o ∧ o ≤ 999 ∧ (generateOrderCode sex rng).1 = sprintf0d 3 (o : Int) := by
  unfold generateOrderCode
  lift_lets
  extract_lets drawn order
  have hb : 1 ≤ drawn.1 ∧ drawn.1 ≤ 999 := randRange_bounds 1 999 rng (by decide)
  have ho : 1 ≤ order ∧ order ≤ 999 := by
    simp only [order]
    split_ifs <;> omega
  refine ⟨order.toNat, by omega, by omega, ?_⟩
  simp only []
  rw [Int.toNat_of_nonneg (by omega)]


theorem generateBirthdayCode_valid (now : Date) (birthday : Str) (rng : Rng)
    (hnow : plausibleNow now) (hpos : positiveFields birthday) :
    (generateBirthdayCode now birthday rng).1.length = 8 ∧
      (generateBirthdayCode now birthday rng).1.all isDigit = true ∧
      isValidBirthday now (generateBirthdayCode now birthday rng).1 = true := by
  obtain ⟨y, m, d, he, hy1, hy2, hm1, hm2, hd1, hd2, hle⟩ :=
    generateBirthdayCode_fields now birthday rng hnow
  have hle := hle hpos
  obtain ⟨-, hn2, -⟩ := hnow
  obtain ⟨y', rfl⟩ : ∃ y' : Nat, y = (y' : Int) := ⟨y.toNat, by omega⟩
  obtain ⟨m', rfl⟩ : ∃ m' : Nat, m = (m' : Int) := ⟨m.toNat, by omega⟩
  obtain ⟨d', rfl⟩ : ∃ d' : Nat, d = (d' : Int) := ⟨d.toNat, by omega⟩
  rw [he, sprintf0d_eq 4 y' (by decide) (by omega), sprintf0d_eq 2 m' (by decide) (by omega),
    sprintf0d_eq 2 d' (by decide) (by omega)]
  refine ⟨by simp [padDigits_length], by simp [List.all_append, padDigits_all_digit], ?_⟩
  exact isValidBirthday_padDigits now y' m' d' (by omega) (by omega) (by omega) (by omega)
    (by omega) (by omega) (by omega)

theorem generateAddressCode_digits (g : Gazetteer) (address : String) (rng : Rng)
    (hdist : ∃ e ∈ g.addressCode, e.1 % 100 ≠ 0)
    (hcodes : ∀ e ∈ g.addressCode, 100000 ≤ e.1 ∧ e.1 ≤ 999999) :
    (generateAddressCode g address rng).1.length = 6 ∧
      (generateAddressCode g address rng).1.all isDigit = true := by
  obtain ⟨c, hc, he⟩ := generateAddressCode_spec g address rng hdist
  obtain ⟨e, hmem, rfl⟩ := List.mem_map.mp hc
  have := hcodes e hmem
  rw [he, sprintf0d_eq 6 e.1 (by decide) (by omega)]
  exact ⟨padDigits_length 6 _, padDigits_all_digit 6 _⟩

theorem generateOrderCode_digits (sex : Int) (rng : Rng) :
    (generateOrderCode sex rng).1.length = 3 ∧
      (generateOrderCode sex rng).1.all isDigit = true := by
  obtain ⟨o, -, ho, he⟩ := generateOrderCode_spec sex rng
  rw [he, sprintf0d_eq 3 o (by decide) (by omega)]
  exact ⟨padDigits_length 3 _, padDigits_all_digit 3 _⟩

theorem isValidBirthday_of_not_after (a b : Date) (s : Str) (hab : a.After b = false)
    (h : isValidBirthday a s = true) : isValidBirthday b s = true := by
  unfold isValidBirthday at h ⊢
  cases ht : timeParse s with
  | none => rw [ht] at h; cases h
  | some birthday =>
    rw [ht] at h
    simp only [] at h ⊢
    split_ifs at h with h1 h2
    rw [if_neg h1]
    have hb : birthday.After b = false := by
      have ha : birthday.After a = false := by
        cases hc : birthday.After a with
        | false => rfl
        | true => exact absurd hc h2
      simp only [Date.After, Bool.or_eq_false_iff, Bool.and_eq_false_iff,
        decide_eq_false_iff_not] at ha hab ⊢
      omega
    rw [hb]
    rfl


/-! ## Claims on generation -/

/-- The 18-digit numbers `FakeRequireId` generates are valid when the local date
`today` of the clock is of the years 1950 to 9999 and not after its UTC date
`now`, the table has a district-tier code, all its codes have six digits, and the
month and day fields of the birthday constraint, where given, are positive. -/
theorem FakeRequireId_valid_of_positiveFields (g : Gazetteer) (today now : Date)
    (address : String) (birthday : Str) (sex : Int) (rng : Rng)
    (hdist : ∃ e ∈ g.addressCode, e.1 % 100 ≠ 0)
    (hcodes : ∀ e ∈ g.addressCode, 100000 ≤ e.1 ∧ e.1 ≤ 999999)
    (htoday : plausibleNow today) (hzone : today.After now = false)
    (hpos : positiveFields birthday) :
    (FakeRequireId g today true address birthday sex rng).length = 18 ∧
      Validate now (FakeRequireId g today true address birthday sex rng) = .ok () := by
  unfold FakeRequireId
  lift_lets
  extract_lets addressCode birthdayCode orderCode body
  obtain ⟨ha1, ha2⟩ : addressCode.1.length = 6 ∧ addressCode.1.all isDigit = true :=
    generateAddressCode_digits g address rng hdist hcodes
  obtain ⟨hb1, hb2, hb3⟩ : birthdayCode.1.length = 8 ∧ birthdayCode.1.all isDigit = true ∧
      isValidBirthday today birthdayCode.1 = true :=
    generateBirthdayCode_valid today birthday addressCode.2 htoday hpos
  have hb4 : isValidBirthday now birthdayCode.1 = true :=
    isValidBirthday_of_not_after today now birthdayCode.1 hzone hb3
  obtain ⟨ho1, ho2⟩ : orderCode.1.length = 3 ∧ orderCode.1.all isDigit = true :=
    generateOrderCode_digits sex birthdayCode.2
  have hne : addressCode.1 ≠ [] := by
    intro h; rw [h] at ha1; simp at ha1
  have h17 : body.length = 17 := by
    simp [body, ha1, hb1, ho1]
  have hall : body.all isDigit = true := by
    simp only [body, List.all_append, ha2, hb2, ho2, Bool.and_self]
  have hslice : slice body 6 14 = birthdayCode.1 := by
    have := slice_mid addressCode.1 birthdayCode.1 orderCode.1
    rwa [ha1, hb1] at this
  obtain ⟨c, hc, hok, hnorm⟩ := calcCheckBit_char body h17
  rw [if_neg hne]
  simp only [Bool.not_true, Bool.false_eq_true, if_false]
  rw [hc]
  refine ⟨by simp [h17], ?_⟩
  rw [Validate_append now body c h17, if_pos ⟨hall, hok⟩, hslice, if_pos hb4, hnorm, hc,
    if_neg (by simp)]

/-- An instance of `FakeRequireId_valid_of_positiveFields`: the constraint
`19900815` on 2024-06-15. -/
theorem FakeRequireId_valid_of_positiveFields_witness :
    Validate ⟨2024, 6, 15⟩
      (FakeRequireId dongchengGazetteer ⟨2024, 6, 15⟩ true "" (ascii "19900815") 1 [0, 27]) =
      .ok () :=
  (FakeRequireId_valid_of_positiveFields dongchengGazetteer ⟨2024, 6, 15⟩ ⟨2024, 6, 15⟩ ""
    (ascii "19900815") 1 [0, 27] ⟨(110101, "东城区"), by decide, by decide⟩ (by decide)
    (by unfold plausibleNow; decide) (by rfl) (by unfold positiveFields; decide)).2

/-- C4, at the failing input: on 2024-06-15, with the birthday constraint
`20240600`, the day 0 passes the check against today and is then drawn anew; with
the draw 28 the number generated carries the birth code `20240628`, a date after
today, and `Validate` rejects it with `InvalidBirthday`. -/
theorem FakeRequireId_future_birthday :
    FakeRequireId dongchengGazetteer ⟨2024, 6, 15⟩ true "" (ascii "20240600") (-1) [0, 27, 0] =
        ascii "110101202406280018" ∧
      Validate ⟨2024, 6, 15⟩
        (FakeRequireId dongchengGazetteer ⟨2024, 6, 15⟩ true "" (ascii "20240600") (-1) [0, 27, 0]) =
        .error .InvalidBirthday := by
  constructor <;> rfl

/-! ## Claims on tier names and the area invariant -/

theorem GetHistoryAddress_some (g : Gazetteer) (code : Nat) (info : AreaInfo)
    (h : GetHistoryAreaInfo g code = some info) : GetHistoryAddress g code = mostSpecific info := by
  unfold GetHistoryAddress
  rw [h]
  rfl

theorem GetHistoryAddress_none (g : Gazetteer) (code : Nat)
    (h : GetHistoryAreaInfo g code = none) : GetHistoryAddress g code = "" := by
  unfold GetHistoryAddress
  rw [h]

/-- C20: the name of one tier follows the precedence current table, timeline,
snapshot. `getAddressName g c` is the current name of `c` when that is not
empty; otherwise the name of the first entry of the timeline of `c` when there is
an entry; otherwise the most specific non-empty name (district, else city, else
province) of the snapshot entry of `c`; and `""` when `c` is in none of the
three sources. -/
theorem getAddressName_precedence (g : Gazetteer) (c : Nat) :
    (mapGet g.addressCode c ≠ "" → getAddressName g c = mapGet g.addressCode c) ∧
    (∀ entry rest, mapGet g.addressCode c = "" →
        GetAddressCodeTimeline g c = entry :: rest →
        getAddressName g c = mapGet entry "address") ∧
    (∀ info, mapGet g.addressCode c = "" → GetAddressCodeTimeline g c = [] →
        GetHistoryAreaInfo g c = some info → getAddressName g c = mostSpecific info) ∧
    (g.addressCode.lookup c = none → g.timeline.lookup c = none →
        g.historyCodeData.lookup c = none → getAddressName g c = "") := by
  refine ⟨?_, ?_, ?_, ?_⟩
  · intro h
    unfold getAddressName
    simp only [h, ne_eq, not_false_eq_true, if_true]
  · intro entry rest h ht
    unfold getAddressName
    simp only [h, ne_eq, not_true_eq_false, if_false, ht]
  · intro info h ht hh
    unfold getAddressName
    simp only [h, ne_eq, not_true_eq_false, if_false, ht]
    exact GetHistoryAddress_some g c info hh
  · intro h1 h2 h3
    have hm : mapGet g.addressCode c = "" := by
      unfold mapGet; rw [h1]; rfl
    have ht : GetAddressCodeTimeline g c = [] := by
      unfold GetAddressCodeTimeline; rw [h2]; rfl
    unfold getAddressName
    simp only [hm, ne_eq, not_true_eq_false, if_false, ht]
    exact GetHistoryAddress_none g c h3

/-- Witness of C20 on `layeredGazetteer`: a current name, a timeline name, a
snapshot name and a code that is nowhere. -/
theorem getAddressName_precedence_witness :
    getAddressName layeredGazetteer 110000 = "北京市" ∧
      getAddressName layeredGazetteer 110100 = "北京市辖区" ∧
      getAddressName layeredGazetteer 110103 = "崇文区" ∧
      getAddressName layeredGazetteer 999999 = "" :=
  ⟨(getAddressName_precedence layeredGazetteer 110000).1 (by decide),
    (getAddressName_precedence layeredGazetteer 110100).2.1 [("address", "北京市辖区")]
      [[("address", "旧名")]] (by rfl) (by rfl),
    (getAddressName_precedence layeredGazetteer 110103).2.2.1
      { Province := "北京市", City := "市辖区", District := "崇文区" } (by rfl) (by rfl) (by rfl),
    (getAddressName_precedence layeredGazetteer 999999).2.2.2 (by rfl) (by rfl) (by rfl)⟩

/-- C11, as stated, fails: in `sparseGazetteer` the code 110101 resolves to the
province 北京市 and the district 东城区 with an empty city, the city code 110100
having no name in any source. -/
theorem GetArea_sparse_counterexample :
    GetArea sparseGazetteer (ascii "110101") =
        .ok { Province := "北京市", City := "", District := "东城区" } ∧
      ¬ (∀ a, GetArea sparseGazetteer (ascii "110101") = .ok a → a.District ≠ "" →
          a.City ≠ "" ∧ a.Province ≠ "") := by
  refine ⟨by rfl, ?_⟩
  intro h
  have := h { Province := "北京市", City := "", District := "东城区" } (by rfl) (by decide)
  exact this.1 rfl

/-- C11, amended: when `GetArea` succeeds on a 6-digit region code of value `c`
with a non-empty district, then either the province-level name resolves and the
province returned is non-empty, `c` is not its own city code, and the city
returned is empty exactly when the city code is the province code or has no name
in the sources; or the province-level name does not resolve and the area is the
snapshot entry of `c` as recorded. -/
theorem GetArea_district_invariant (g : Gazetteer) (s : Str) (a : AreaInfo)
    (hlen : s.length = 6) (hd : s.all isDigit = true) (hok : GetArea g s = .ok a)
    (hdist : a.District ≠ "") :
    (getAddressName g (digitsVal s / 10000 * 10000) ≠ "" ∧ a.Province ≠ "" ∧
        digitsVal s ≠ digitsVal s / 100 * 100 ∧
        (a.City = "" ↔
          (digitsVal s / 100 * 100 = digitsVal s / 10000 * 10000 ∨
            getAddressName g (digitsVal s / 100 * 100) = ""))) ∨
    (getAddressName g (digitsVal s / 10000 * 10000) = "" ∧
        GetHistoryAreaInfo g (digitsVal s) = some a) := by
  rw [GetArea_eq g s hlen hd, getAreaByCode_eq] at hok
  by_cases hp : getAddressName g (digitsVal s / 10000 * 10000) = ""
  · right
    rw [if_pos hp] at hok
    refine ⟨hp, ?_⟩
    cases hh : GetHistoryAreaInfo g (digitsVal s) with
    | none => rw [hh] at hok; cases hok
    | some info =>
      rw [hh] at hok
      rw [Except.ok.inj hok]
  · left
    rw [if_neg hp] at hok
    have ha : a = tierArea g (digitsVal s) := (Except.ok.inj hok).symm
    subst ha
    refine ⟨hp, hp, ?_, ?_⟩
    · intro hc
      apply hdist
      simp only [tierArea]
      rw [if_neg]
      rintro ⟨h1, -⟩
      exact h1 hc
    · simp only [tierArea]
      by_cases hcp : digitsVal s / 100 * 100 = digitsVal s / 10000 * 10000
      · simp [hcp]
      · simp [hcp]

/-- Witness of C11 (amended) on `sparseGazetteer` and 110101. -/
theorem GetArea_district_invariant_witness :
    GetArea sparseGazetteer (ascii "110101") =
        .ok { Province := "北京市", City := "", District := "东城区" } ∧
      getAddressName sparseGazetteer (digitsVal (ascii "110101") / 100 * 100) = "" :=
  ⟨by rfl, by
    have h := GetArea_district_invariant sparseGazetteer (ascii "110101")
      { Province := "北京市", City := "", District := "东城区" } (by rfl) (by rfl) (by rfl)
      (by decide)
    rcases h with ⟨-, -, -, h⟩ | ⟨h, -⟩
    · rcases h.mp rfl with h | h
      · exact absurd h (by decide)
      · exact h
    · exact absurd h (by decide)⟩


/-! ## Claims on the information of a number -/

theorem Validate_ok_parse (now : Date) (id : Str) (h : Validate now id = .ok ()) :
    ∃ parsed, parseID id = .ok parsed ∧ isValidBirthday now parsed.birthdayCode = true := by
  unfold Validate at h
  cases hp : parseID id with
  | error e => rw [hp] at h; cases h
  | ok parsed =>
    rw [hp] at h
    refine ⟨parsed, rfl, ?_⟩
    cases hb : isValidBirthday now parsed.birthdayCode with
    | true => rfl
    | false => simp [hb] at h

theorem GetInfo_of_error (g : Gazetteer) (now today : Date) (id : Str) (e : Err)
    (h : Validate now id = .error e) : GetInfo g now today id = .error e := by
  unfold GetInfo
  rw [h]

theorem GetInfo_of_ok (g : Gazetteer) (now today : Date) (id : Str) (parsed : parsedID)
    (h : Validate now id = .ok ()) (hp : parseID id = .ok parsed) :
    GetInfo g now today id = .ok
      { CardNo :=
          if parsed.length = 15 then
            (match UpgradeTo18 now id with
              | .ok s => s
              | .error _ => [])
          else id
        Area :=
          match getAreaByCode g ((parseUint32 parsed.addressCode).getD 0) with
          | .ok a => a
          | .error _ => { Province := "", City := "", District := "" }
        Info :=
          { Age := calcAge today ((timeParse parsed.birthdayCode).getD ⟨1, 1, 1⟩)
            Birthday := formatDate ((timeParse parsed.birthdayCode).getD ⟨1, 1, 1⟩)
            Gender := if Atoi parsed.orderCode % 2 = 0 then 0 else 1 } } := by
  unfold GetInfo
  rw [h]
  rw [hp]

theorem parsed_addressCode (id : Str) (parsed : parsedID) (hp : parseID id = .ok parsed) :
    parsed.addressCode = slice id 0 6 ∧ 6 ≤ id.length ∧ (slice id 0 6).all isDigit = true := by
  rcases parseID_ok id parsed hp with ⟨h15, rfl⟩ | ⟨h18, rfl⟩
  · refine ⟨rfl, by omega, ?_⟩
    unfold parseID at hp
    rw [if_pos h15, parse15_eq] at hp
    have hall : id.all isDigit = true := by
      by_contra hne
      rw [if_neg hne] at hp
      cases hp
    rw [List.all_eq_true] at hall ⊢
    intro x hx
    simp only [slice, List.drop_zero] at hx
    exact hall x (List.mem_of_mem_take hx)
  · refine ⟨rfl, by omega, ?_⟩
    unfold parseID at hp
    rw [if_neg (by omega), if_pos h18, parse18_eq id (by omega)] at hp
    have hall : (slice id 0 17).all isDigit = true := by
      by_contra hne
      rw [if_neg hne] at hp
      cases hp
    rw [List.all_eq_true] at hall ⊢
    intro x hx
    apply hall x
    simp only [slice, List.drop_zero] at hx ⊢
    have : List.take 6 id = List.take 6 (List.take 17 id) := by
      rw [List.take_take]; simp
    rw [this] at hx
    exact List.mem_of_mem_take hx

theorem parseUint32_six (s : Str) (hlen : s.length = 6) (hd : s.all isDigit = true) :
    parseUint32 s = some (digitsVal s) := by
  have hlt : digitsVal s < 2 ^ 32 := by
    have := digitsVal_lt s hd
    rw [hlen] at this
    omega
  have hne : s ≠ [] := by
    intro h; rw [h] at hlen; simp at hlen
  unfold parseUint32
  rw [if_pos ⟨hne, hd, hlt⟩]

/-- C12: `GetInfo` returns an error exactly when `Validate` does, and the same
one; the error does not depend on the tables; and for a valid number whose region
code `id[0:6]` `GetArea` cannot resolve, `GetInfo` succeeds with an area whose
province, city and district are empty. This holds for every UTC date `now` and
every local date `today` of the clock. -/
theorem GetInfo_error_iff (g : Gazetteer) (now today : Date) (id : Str) :
    (∀ e, GetInfo g now today id = .error e ↔ Validate now id = .error e) ∧
    ((∃ info, GetInfo g now today id = .ok info) ↔ Validate now id = .ok ()) ∧
    (∀ (g' : Gazetteer) (e : Err), GetInfo g' now today id = .error e ↔ GetInfo g now today id = .error e) ∧
    (Validate now id = .ok () → (∃ e, GetArea g (slice id 0 6) = .error e) →
      ∃ info, GetInfo g now today id = .ok info ∧ info.Area = emptyArea) := by
  have key : ∀ (g₁ : Gazetteer) (e : Err),
      GetInfo g₁ now today id = .error e ↔ Validate now id = .error e := by
    intro g₁ e
    constructor
    · intro h
      cases hv : Validate now id with
      | error e' =>
        rw [GetInfo_of_error g₁ now today id e' hv] at h
        rw [Except.error.inj h]
      | ok u =>
        obtain ⟨parsed, hp, -⟩ := Validate_ok_parse now id hv
        rw [GetInfo_of_ok g₁ now today id parsed hv hp] at h
        cases h
    · exact GetInfo_of_error g₁ now today id e
  refine ⟨key g, ?_, ?_, ?_⟩
  · constructor
    · rintro ⟨info, h⟩
      cases hv : Validate now id with
      | error e' =>
        rw [GetInfo_of_error g now today id e' hv] at h
        cases h
      | ok u => rfl
    · intro hv
      obtain ⟨parsed, hp, -⟩ := Validate_ok_parse now id hv
      exact ⟨_, GetInfo_of_ok g now today id parsed hv hp⟩
  · intro g' e
    rw [key g' e, key g e]
  · rintro hv ⟨e, he⟩
    obtain ⟨parsed, hp, -⟩ := Validate_ok_parse now id hv
    obtain ⟨ha, hlen, hd⟩ := parsed_addressCode id parsed hp
    have h6 : (slice id 0 6).length = 6 := by
      rw [slice_length id 0 6 hlen]
    rw [GetArea_eq g (slice id 0 6) h6 hd] at he
    refine ⟨_, GetInfo_of_ok g now today id parsed hv hp, ?_⟩
    simp only [ha, parseUint32_six (slice id 0 6) h6 hd, Option.getD_some, he]
    rfl

/-- Witness of C12: a valid 15-character number with the region code 990103,
which `beijingGazetteer` cannot resolve. -/
theorem GetInfo_error_iff_witness :
    Validate ⟨2024, 6, 15⟩ (ascii "990103240615002") = .ok () ∧
      (∃ e, GetArea beijingGazetteer (slice (ascii "990103240615002") 0 6) = .error e) ∧
      ∃ info, GetInfo beijingGazetteer ⟨2024, 6, 15⟩ ⟨2024, 6, 15⟩ (ascii "990103240615002") = .ok info ∧
        info.Area = emptyArea :=
  ⟨by rfl, ⟨_, by rfl⟩,
    (GetInfo_error_iff beijingGazetteer ⟨2024, 6, 15⟩ ⟨2024, 6, 15⟩
      (ascii "990103240615002")).2.2.2 (by rfl)
      ⟨_, by rfl⟩⟩

/-- The age `GetInfo` reports for a number `Validate` accepts is the year of the
local date `today` minus the year of birth, less one when the month and day of
`today` come before those of the birth; it is not negative when the UTC date
`now` of the clock is not after the local date, as in every zone at or east of
UTC. -/
theorem GetInfo_age_of_not_after (g : Gazetteer) (now today : Date) (id : Str)
    (hv : Validate now id = .ok ()) :
    ∃ info parsed birthday,
      GetInfo g now today id = .ok info ∧ parseID id = .ok parsed ∧
      timeParse parsed.birthdayCode = some birthday ∧
      info.Info.Age =
        ((today.year : Int) - (birthday.year : Int)) -
          (if today.month < birthday.month ∨
              (today.month = birthday.month ∧ today.day < birthday.day) then 1 else 0) ∧
      (now.After today = false → 0 ≤ info.Info.Age) := by
  obtain ⟨parsed, hp, hb⟩ := Validate_ok_parse now id hv
  unfold isValidBirthday at hb
  cases ht : timeParse parsed.birthdayCode with
  | none => rw [ht] at hb; cases hb
  | some birthday =>
    rw [ht] at hb
    simp only [] at hb
    have hafter : birthday.After now = false := by
      cases h : birthday.After now with
      | false => rfl
      | true =>
        rw [h] at hb
        split_ifs at hb with h1 h2
        exact absurd rfl h2
    refine ⟨_, parsed, birthday, GetInfo_of_ok g now today id parsed hv hp, hp, ht, ?_, ?_⟩
    · simp only [ht, Option.getD_some, calcAge]
      split_ifs <;> ring
    · intro hzone
      simp only [ht, Option.getD_some, calcAge]
      simp only [Date.After, Bool.or_eq_false_iff, Bool.and_eq_false_iff,
        decide_eq_false_iff_not] at hafter hzone
      split_ifs <;> omega

/-- An instance of `GetInfo_age_of_not_after`: `11010519491231002X` on 2024-06-15,
aged 74. -/
theorem GetInfo_age_of_not_after_instance :
    ∃ info,
      GetInfo beijingGazetteer ⟨2024, 6, 15⟩ ⟨2024, 6, 15⟩ (ascii "11010519491231002X") =
        .ok info ∧ info.Info.Age = 74 := by
  obtain ⟨info, parsed, birthday, h, hp, ht, hage, -⟩ :=
    GetInfo_age_of_not_after beijingGazetteer ⟨2024, 6, 15⟩ ⟨2024, 6, 15⟩
      (ascii "11010519491231002X") (by rfl)
  refine ⟨info, h, ?_⟩
  have hp2 : parseID (ascii "11010519491231002X") =
      .ok (record18 (ascii "11010519491231002X")) := by rfl
  rw [hp2] at hp
  cases hp
  have ht2 : timeParse (record18 (ascii "11010519491231002X")).birthdayCode =
      some ⟨1949, 12, 31⟩ := by rfl
  rw [ht2] at ht
  cases ht
  rw [hage]
  decide

/-- C14, at the failing input: at 02:00 UTC of 2024-06-15 the local date of a zone
four hours west of UTC is 2024-06-14. `Validate` accepts `110101202406150010`,
born on 2024-06-15, the birthday not being after the instant, and `GetInfo`
reports the age -1. -/
theorem GetInfo_negative_age :
    Validate ⟨2024, 6, 15⟩ (ascii "110101202406150010") = .ok () ∧
      ∃ info,
        GetInfo beijingGazetteer ⟨2024, 6, 15⟩ ⟨2024, 6, 14⟩ (ascii "110101202406150010") =
          .ok info ∧
        info.Info.Age = -1 ∧ info.Info.Birthday = ascii "2024-06-15" :=
  ⟨by rfl, _, by rfl, by rfl, by rfl⟩

/-! ## Lemmas on the sequence code and the shape of generated numbers -/

theorem generateOrderCode_value (sex : Int) (rng : Rng) :
    1 ≤ (randRange 1 999 rng).1 ∧ (randRange 1 999 rng).1 ≤ 999 ∧
    ∃ v : Nat, (generateOrderCode sex rng).1 = padDigits 3 v ∧ 1 ≤ v ∧ v ≤ 999 ∧
      (sex = 1 → v % 2 = 1 ∧
        (v : Int) = if (randRange 1 999 rng).1 % 2 = 0 then (randRange 1 999 rng).1 + 1
          else (randRange 1 999 rng).1) ∧
      (sex = 0 → v % 2 = 0 ∧ v ≤ 998 ∧
        (v : Int) = if (randRange 1 999 rng).1 = 999 then 998
          else if (randRange 1 999 rng).1 % 2 = 1 then (randRange 1 999 rng).1 + 1
          else (randRange 1 999 rng).1) ∧
      (sex ≠ 1 → sex ≠ 0 → (v : Int) = (randRange 1 999 rng).1) := by
  have hb := randRange_bounds 1 999 rng (by decide)
  refine ⟨hb.1, hb.2, ?_⟩
  unfold generateOrderCode
  lift_lets
  extract_lets drawn order
  have hd : drawn = randRange 1 999 rng := rfl
  rw [← hd] at hb ⊢
  have ho : 1 ≤ order ∧ order ≤ 999 := by
    simp only [order]
    split_ifs <;> omega
  refine ⟨order.toNat, ?_, by omega, by omega, ?_, ?_, ?_⟩
  · simp only []
    have h := sprintf0d_eq 3 order.toNat (by decide) (by omega)
    rw [Int.toNat_of_nonneg (by omega)] at h
    exact h
  · intro hs
    rw [Int.toNat_of_nonneg (by omega)]
    have : order = if drawn.1 % 2 = 0 then drawn.1 + 1 else drawn.1 := by
      simp only [order, hs, true_and]
      split_ifs <;> omega
    refine ⟨?_, this⟩
    split_ifs at this <;> omega
  · intro hs
    rw [Int.toNat_of_nonneg (by omega)]
    have : order = if drawn.1 = 999 then 998
        else if drawn.1 % 2 = 1 then drawn.1 + 1 else drawn.1 := by
      simp only [order, hs, true_and]
      split_ifs <;> omega
    refine ⟨?_, ?_, this⟩
    · split_ifs at this <;> omega
    · split_ifs at this <;> omega
  · intro h1 h0
    rw [Int.toNat_of_nonneg (by omega)]
    simp only [order, h1, h0, false_and, if_false]

theorem byteAt_padDigits_last (w v : Nat) : byteAt (padDigits (w + 1) v) w = 48 + v % 10 := by
  have := byteAt_append_last (padDigits w (v / 10)) (48 + v % 10)
  rw [padDigits_length] at this
  exact this

theorem byteAt_padDigits_first (v : Nat) : byteAt (padDigits 3 v) 0 = 48 + v / 100 % 10 := by
  simp [padDigits, byteAt, List.getD]
  omega

theorem generateBirthdayCode_shape (now : Date) (birthday : Str) (rng : Rng)
    (hnow : now.year ≤ 9999) :
    ∃ y m d : Nat,
      (generateBirthdayCode now birthday rng).1 = padDigits 4 y ++ padDigits 2 m ++ padDigits 2 d ∧
      1900 ≤ y ∧ y ≤ 9999 ∧ 1 ≤ m ∧ m ≤ 12 ∧ 1 ≤ d ∧ d ≤ 28 := by
  unfold generateBirthdayCode
  lift_lets
  extract_lets d1 m2 d2 y3 m3 d3 given year0 month0 day0 year month1 day1 month day
  have hyear : 1900 ≤ year.1 ∧ year.1 ≤ 9999 := by
    simp only [year]
    split_ifs with h
    · have h1 := randRange_ge 1950 ((now.year : Int) - 1) given.2.2.2
      have h2 := randRange_le 1950 ((now.year : Int) - 1) given.2.2.2
      omega
    · simp only []; omega
  have hmonth : 1 ≤ month.1 ∧ month.1 ≤ 12 := by
    simp only [month]
    split_ifs with h
    · exact randRange_bounds 1 12 _ (by omega)
    · simp only []; omega
  have hday : 1 ≤ day.1 ∧ day.1 ≤ 28 := by
    simp only [day]
    split_ifs with h
    · exact randRange_bounds 1 28 _ (by omega)
    · simp only []; omega
  refine ⟨year.1.toNat, month.1.toNat, day.1.toNat, ?_, by omega, by omega, by omega, by omega,
    by omega, by omega⟩
  simp only []
  have e1 := sprintf0d_eq 4 year.1.toNat (by decide) (by omega)
  have e2 := sprintf0d_eq 2 month.1.toNat (by decide) (by omega)
  have e3 := sprintf0d_eq 2 day.1.toNat (by decide) (by omega)
  rw [Int.toNat_of_nonneg (by omega)] at e1 e2 e3
  rw [e1, e2, e3]

theorem generateAddressCode_six (g : Gazetteer) (address : String) (rng : Rng)
    (hdist : ∃ e ∈ g.addressCode, e.1 % 100 ≠ 0)
    (hcodes : ∀ e ∈ g.addressCode, 100000 ≤ e.1 ∧ e.1 ≤ 999999) :
    ∃ c, c ∈ g.addressCode.map Prod.fst ∧ 100000 ≤ c ∧ c ≤ 999999 ∧
      (generateAddressCode g address rng).1 = padDigits 6 c := by
  obtain ⟨c, hc, he⟩ := generateAddressCode_spec g address rng hdist
  obtain ⟨e, hmem, rfl⟩ := List.mem_map.mp hc
  have := hcodes e hmem
  exact ⟨e.1, hc, this.1, this.2, by rw [he, sprintf0d_eq 6 e.1 (by decide) (by omega)]⟩

theorem FakeRequireId_eq (g : Gazetteer) (now : Date) (isEighteen : Bool) (address : String)
    (birthday : Str) (sex : Int) (rng : Rng)
    (hne : (generateAddressCode g address rng).1 ≠ []) :
    FakeRequireId g now isEighteen address birthday sex rng =
      if isEighteen = true then
        (generateAddressCode g address rng).1 ++
          (generateBirthdayCode now birthday (generateAddressCode g address rng).2).1 ++
          (generateOrderCode sex
            (generateBirthdayCode now birthday (generateAddressCode g address rng).2).2).1 ++
          calcCheckBit ((generateAddressCode g address rng).1 ++
            (generateBirthdayCode now birthday (generateAddressCode g address rng).2).1 ++
            (generateOrderCode sex
              (generateBirthdayCode now birthday (generateAddressCode g address rng).2).2).1)
      else
        (generateAddressCode g address rng).1 ++
          (generateBirthdayCode now birthday (generateAddressCode g address rng).2).1.drop 2 ++
          (generateOrderCode sex
            (generateBirthdayCode now birthday (generateAddressCode g address rng).2).2).1 := by
  unfold FakeRequireId
  simp only [if_neg hne]
  cases isEighteen <;> simp

theorem padDigits_split (a b n : Nat) :
    padDigits (a + b) n = padDigits a (n / 10 ^ b) ++ padDigits b n := by
  induction b generalizing n with
  | zero => simp [padDigits]
  | succ b ih =>
    rw [← Nat.add_assoc, padDigits, padDigits, ih (n / 10), ← List.append_assoc,
      Nat.div_div_eq_div_mul, pow_succ, Nat.mul_comm 10 (10 ^ b)]

theorem padDigits_ne_nil (w n : Nat) (hw : 0 < w) : padDigits w n ≠ [] := by
  intro h
  have := padDigits_length w n
  rw [h] at this
  simp at this
  omega

theorem Atoi_padDigits (w n : Nat) (hw : 0 < w) (hn : n < 10 ^ w) :
    Atoi (padDigits w n) = (n : Int) := by
  have hall := padDigits_all_digit w n
  have hval := digitsVal_padDigits w n
  rw [Nat.mod_eq_of_lt hn] at hval
  cases hp : padDigits w n with
  | nil => exact absurd hp (padDigits_ne_nil w n hw)
  | cons c t =>
    rw [hp] at hall hval
    have hc : isDigit c = true := by
      simp only [List.all_cons, Bool.and_eq_true] at hall
      exact hall.1
    have hc' : 48 ≤ c ∧ c ≤ 57 := by
      simpa [isDigit] using hc
    have hsign : ¬ (c = 45 ∨ c = 43) := by omega
    have hall' : ¬ (c :: t = [] ∨ (c :: t).all isDigit = false) := by
      rw [hall]; simp
    have h45 : ¬ c = 45 := by omega
    simp only [Atoi, if_neg hsign, if_neg hall', if_neg h45, hval]

theorem generateBirthdayCode_full (now : Date) (rng : Rng) (y m d : Nat)
    (hy1 : 1900 ≤ y) (hy2 : y ≤ 9999) (hm1 : 1 ≤ m) (hm2 : m ≤ 12) (hd1 : 1 ≤ d) (hd2 : d ≤ 28)
    (hnot : Date.After ⟨y, m, d⟩ now = false) :
    generateBirthdayCode now (padDigits 4 y ++ padDigits 2 m ++ padDigits 2 d) rng =
      (padDigits 4 y ++ padDigits 2 m ++ padDigits 2 d, rng) := by
  have l4 := padDigits_length 4 y
  have l2 := padDigits_length 2 m
  have l2' := padDigits_length 2 d
  have s1 : slice (padDigits 4 y ++ padDigits 2 m ++ padDigits 2 d) 0 4 = padDigits 4 y := by
    have := slice_prefix2 (padDigits 4 y) (padDigits 2 m) (padDigits 2 d)
    rwa [l4] at this
  have s2 : slice (padDigits 4 y ++ padDigits 2 m ++ padDigits 2 d) 4 6 = padDigits 2 m := by
    have := slice_mid (padDigits 4 y) (padDigits 2 m) (padDigits 2 d)
    rwa [l4, l2] at this
  have s3 : slice (padDigits 4 y ++ padDigits 2 m ++ padDigits 2 d) 6 8 = padDigits 2 d := by
    have := slice_suffix (padDigits 4 y ++ padDigits 2 m) (padDigits 2 d)
    rwa [List.length_append, l4, l2, l2'] at this
  have hlen : (padDigits 4 y ++ padDigits 2 m ++ padDigits 2 d).length = 8 := by
    simp [l4, l2, l2']
  have a1 := Atoi_padDigits 4 y (by decide) (by omega)
  have a2 := Atoi_padDigits 2 m (by decide) (by omega)
  have a3 := Atoi_padDigits 2 d (by decide) (by omega)
  simp only [Date.After, Bool.or_eq_false_iff, Bool.and_eq_false_iff,
    decide_eq_false_iff_not] at hnot
  have e1 := sprintf0d_eq 4 y (by decide) (by omega)
  have e2 := sprintf0d_eq 2 m (by decide) (by omega)
  have e3 := sprintf0d_eq 2 d (by decide) (by omega)
  have hyr : ¬ ((y : Int) < 1900 ∨ (y : Int) > (now.year : Int)) := by omega
  have hmo : ¬ ((y : Int) = (now.year : Int) ∧ (m : Int) > (now.month : Int)) := by omega
  have hda : ¬ ((y : Int) = (now.year : Int) ∧ (m : Int) = (now.month : Int) ∧
      (d : Int) > (now.day : Int)) := by omega
  have hmr : ¬ ((m : Int) < 1 ∨ (m : Int) > 12) := by omega
  have hdr : ¬ ((d : Int) < 1 ∨ (d : Int) > 28) := by omega
  unfold generateBirthdayCode
  simp only [if_pos hlen, s1, s2, s3, a1, a2, a3, if_neg hyr, if_neg hmo, if_neg hda, if_neg hmr,
    if_neg hdr, e1, e2, e3]


/-! ## Claims on the sequence code -/

theorem byteAt_append_mid (l rest : Str) (x : Nat) : byteAt (l ++ [x] ++ rest) l.length = x := by
  have h : l.length < (l ++ [x] ++ rest).length := by simp
  rw [byteAt, List.getD_eq_getElem _ 0 h]
  simp [List.getElem_append_right]

theorem randRange_draw (r : Nat) (h1 : 1 ≤ r) (h2 : r ≤ 999) :
    (randRange 1 999 [r - 1]).1 = (r : Int) := by
  unfold randRange
  rw [if_neg (by decide)]
  have : (999 - 1 + 1 : Int).toNat = 999 := by decide
  simp only [this, Intn]
  rw [Nat.mod_eq_of_lt (by omega)]
  omega

/-- C17: for the draw `r` of `randRange(1, 999)`, `generateOrderCode` returns the
three zero-padded decimal digits of a value `v` in 1..999: with sex 1, `v` is odd,
`r` or `r + 1` when `r` is even; with sex 0, `v` is even and at most 998, `r` or
`r + 1` when `r` is odd, and 998 for the draw 999; with another sex, `v = r`.
Every `r` in 1..999 is a possible draw. Hence, for a table of 6-digit codes with
a district-tier code and a clock year of at most 9999, the number generated with
18 characters has at index 16 a digit of the parity of the sex asked for. -/
theorem generateOrderCode_parity (g : Gazetteer) (now : Date) (address : String)
    (birthday : Str) (sex : Int) (rng : Rng)
    (hdist : ∃ e ∈ g.addressCode, e.1 % 100 ≠ 0)
    (hcodes : ∀ e ∈ g.addressCode, 100000 ≤ e.1 ∧ e.1 ≤ 999999)
    (hyear : now.year ≤ 9999) :
    (∀ draws : Rng,
      1 ≤ (randRange 1 999 draws).1 ∧ (randRange 1 999 draws).1 ≤ 999 ∧
      ∃ v : Nat, (generateOrderCode sex draws).1 = padDigits 3 v ∧ 1 ≤ v ∧ v ≤ 999 ∧
        (sex = 1 → v % 2 = 1 ∧
          (v : Int) = if (randRange 1 999 draws).1 % 2 = 0 then (randRange 1 999 draws).1 + 1
            else (randRange 1 999 draws).1) ∧
        (sex = 0 → v % 2 = 0 ∧ v ≤ 998 ∧
          (v : Int) = if (randRange 1 999 draws).1 = 999 then 998
            else if (randRange 1 999 draws).1 % 2 = 1 then (randRange 1 999 draws).1 + 1
            else (randRange 1 999 draws).1) ∧
        (sex ≠ 1 → sex ≠ 0 → (v : Int) = (randRange 1 999 draws).1)) ∧
    (∀ r : Nat, 1 ≤ r → r ≤ 999 → ∃ draws : Rng, (randRange 1 999 draws).1 = (r : Int)) ∧
    (sex = 0 ∨ sex = 1 →
      (FakeRequireId g now true address birthday sex rng).length = 18 ∧
      isDigit (byteAt (FakeRequireId g now true address birthday sex rng) 16) = true ∧
      ((byteAt (FakeRequireId g now true address birthday sex rng) 16 - 48 : Nat) : Int) % 2 =
        sex) := by
  refine ⟨fun draws => generateOrderCode_value sex draws,
    fun r h1 h2 => ⟨[r - 1], randRange_draw r h1 h2⟩, ?_⟩
  intro hsex
  obtain ⟨c, -, hc1, hc2, hA⟩ := generateAddressCode_six g address rng hdist hcodes
  obtain ⟨y, m, d, hB, -⟩ :=
    generateBirthdayCode_shape now birthday (generateAddressCode g address rng).2 hyear
  obtain ⟨-, -, v, hO, hv1, hv2, hs1, hs0, -⟩ := generateOrderCode_value sex
    (generateBirthdayCode now birthday (generateAddressCode g address rng).2).2
  have hne : (generateAddressCode g address rng).1 ≠ [] := by
    rw [hA]; intro h
    have := padDigits_length 6 c
    rw [h] at this
    simp at this
  rw [FakeRequireId_eq g now true address birthday sex rng hne, if_pos rfl, hA, hB, hO]
  have h17 : (padDigits 6 c ++ (padDigits 4 y ++ padDigits 2 m ++ padDigits 2 d) ++
      padDigits 3 v).length = 17 := by
    simp [padDigits_length]
  obtain ⟨ch, hch, -⟩ := calcCheckBit_char _ h17
  rw [hch]
  have h16 : (padDigits 6 c ++ (padDigits 4 y ++ padDigits 2 m ++ padDigits 2 d) ++
      padDigits 2 (v / 10)).length = 16 := by
    simp [padDigits_length]
  have hsplit : padDigits 6 c ++ (padDigits 4 y ++ padDigits 2 m ++ padDigits 2 d) ++
      padDigits 3 v ++ [ch] =
      (padDigits 6 c ++ (padDigits 4 y ++ padDigits 2 m ++ padDigits 2 d) ++
        padDigits 2 (v / 10)) ++ [48 + v % 10] ++ [ch] := by
    simp [padDigits, List.append_assoc]
  have hbyte := byteAt_append_mid (padDigits 6 c ++
    (padDigits 4 y ++ padDigits 2 m ++ padDigits 2 d) ++ padDigits 2 (v / 10)) [ch] (48 + v % 10)
  rw [h16, ← hsplit] at hbyte
  refine ⟨by simp [padDigits_length], ?_, ?_⟩
  · rw [hbyte]; simp [isDigit]; omega
  · rw [hbyte]
    rcases hsex with h | h
    · have := (hs0 h).1
      rw [h]; omega
    · have := (hs1 h).1
      rw [h]; omega

/-- Witness of C17: a man's number generated from `dongchengGazetteer`. -/
theorem generateOrderCode_parity_witness :
    FakeRequireId dongchengGazetteer ⟨2024, 6, 15⟩ true "" (ascii "19900815") 1 [0, 27] =
        ascii "110101199008150299" ∧
      ((byteAt (FakeRequireId dongchengGazetteer ⟨2024, 6, 15⟩ true "" (ascii "19900815") 1
        [0, 27]) 16 - 48 : Nat) : Int) % 2 = 1 :=
  ⟨by rfl,
    ((generateOrderCode_parity dongchengGazetteer ⟨2024, 6, 15⟩ "" (ascii "19900815") 1 [0, 27]
      ⟨(110101, "东城区"), by decide, by decide⟩ (by decide) (by decide)).2.2
      (Or.inr rfl)).2.2⟩

/-- C19, as stated, fails: with sex 1 and the draw 201 the sequence code is `201`,
whose third digit from the end is the even digit 2. -/
theorem generateOrderCode_first_digit_counterexample :
    (generateOrderCode 1 [200]).1 = ascii "201" ∧
      byteAt (generateOrderCode 1 [200]).1 0 = 50 ∧
      ((byteAt (generateOrderCode 1 [200]).1 0 - 48 : Nat) : Int) % 2 ≠ 1 := by
  refine ⟨by rfl, by rfl, by decide⟩

/-- C19, amended: for a sex `s` of 0 or 1 and every draw, the sequence code has
three digits and the parity of its last digit is `s`: odd for 1, even for 0. -/
theorem generateOrderCode_last_digit (sex : Int) (rng : Rng) (hsex : sex = 0 ∨ sex = 1) :
    (generateOrderCode sex rng).1.length = 3 ∧
      (generateOrderCode sex rng).1.all isDigit = true ∧
      ((byteAt (generateOrderCode sex rng).1 2 - 48 : Nat) : Int) % 2 = sex := by
  obtain ⟨-, -, v, hO, hv1, hv2, hs1, hs0, -⟩ := generateOrderCode_value sex rng
  rw [hO, byteAt_padDigits_last 2 v]
  refine ⟨padDigits_length 3 v, padDigits_all_digit 3 v, ?_⟩
  rcases hsex with h | h
  · have := (hs0 h).1
    rw [h]; omega
  · have := (hs1 h).1
    rw [h]; omega

/-- Witness of C19 (amended): sex 1 and the draw 201 give `201`, ending in 1. -/
theorem generateOrderCode_last_digit_witness :
    (generateOrderCode 1 [200]).1 = ascii "201" ∧
      ((byteAt (generateOrderCode 1 [200]).1 2 - 48 : Nat) : Int) % 2 = 1 :=
  ⟨by rfl, (generateOrderCode_last_digit 1 [200] (Or.inr rfl)).2.2⟩


/-! ## Claim on the check character -/

theorem length17_cases (n : Str) (h : n.length = 17) :
    ∃ a0 a1 a2 a3 a4 a5 a6 a7 a8 a9 a10 a11 a12 a13 a14 a15 a16 : Nat,
      n = [a0, a1, a2, a3, a4, a5, a6, a7, a8, a9, a10, a11, a12, a13, a14, a15, a16] := by
  obtain ⟨a0, t0, rfl, h0⟩ := exists_cons_of_length _ _ h
  obtain ⟨a1, t1, rfl, h1⟩ := exists_cons_of_length _ _ h0
  obtain ⟨a2, t2, rfl, h2⟩ := exists_cons_of_length _ _ h1
  obtain ⟨a3, t3, rfl, h3⟩ := exists_cons_of_length _ _ h2
  obtain ⟨a4, t4, rfl, h4⟩ := exists_cons_of_length _ _ h3
  obtain ⟨a5, t5, rfl, h5⟩ := exists_cons_of_length _ _ h4
  obtain ⟨a6, t6, rfl, h6⟩ := exists_cons_of_length _ _ h5
  obtain ⟨a7, t7, rfl, h7⟩ := exists_cons_of_length _ _ h6
  obtain ⟨a8, t8, rfl, h8⟩ := exists_cons_of_length _ _ h7
  obtain ⟨a9, t9, rfl, h9⟩ := exists_cons_of_length _ _ h8
  obtain ⟨a10, t10, rfl, h10⟩ := exists_cons_of_length _ _ h9
  obtain ⟨a11, t11, rfl, h11⟩ := exists_cons_of_length _ _ h10
  obtain ⟨a12, t12, rfl, h12⟩ := exists_cons_of_length _ _ h11
  obtain ⟨a13, t13, rfl, h13⟩ := exists_cons_of_length _ _ h12
  obtain ⟨a14, t14, rfl, h14⟩ := exists_cons_of_length _ _ h13
  obtain ⟨a15, t15, rfl, h15⟩ := exists_cons_of_length _ _ h14
  obtain ⟨a16, t16, rfl, h16⟩ := exists_cons_of_length _ _ h15
  have : t16 = [] := List.length_eq_zero.mp h16
  subst this
  exact ⟨a0, a1, a2, a3, a4, a5, a6, a7, a8, a9, a10, a11, a12, a13, a14, a15, a16, rfl⟩

theorem weights_pow : ∀ i, i < 17 → weights.getD i 0 = 2 ^ (17 - i) % 11 := by
  decide

theorem calcCheckBit_explicit (a0 a1 a2 a3 a4 a5 a6 a7 a8 a9 a10 a11 a12 a13 a14 a15 a16 : Nat) :
    calcCheckBit [a0, a1, a2, a3, a4, a5, a6, a7, a8, a9, a10, a11, a12, a13, a14, a15, a16] =
      checkCodes.getD
        (((a0 + 256 - 48) % 256 * 7 + (a1 + 256 - 48) % 256 * 9 + (a2 + 256 - 48) % 256 * 10 +
          (a3 + 256 - 48) % 256 * 5 + (a4 + 256 - 48) % 256 * 8 + (a5 + 256 - 48) % 256 * 4 +
          (a6 + 256 - 48) % 256 * 2 + (a7 + 256 - 48) % 256 * 1 + (a8 + 256 - 48) % 256 * 6 +
          (a9 + 256 - 48) % 256 * 3 + (a10 + 256 - 48) % 256 * 7 + (a11 + 256 - 48) % 256 * 9 +
          (a12 + 256 - 48) % 256 * 10 + (a13 + 256 - 48) % 256 * 5 + (a14 + 256 - 48) % 256 * 8 +
          (a15 + 256 - 48) % 256 * 4 + (a16 + 256 - 48) % 256 * 2) % 11) [] := by
  simp [calcCheckBit, List.range, List.range.loop, byteAt, weights]

theorem iso7064Sum_explicit (a0 a1 a2 a3 a4 a5 a6 a7 a8 a9 a10 a11 a12 a13 a14 a15 a16 : Nat) :
    iso7064Sum [a0, a1, a2, a3, a4, a5, a6, a7, a8, a9, a10, a11, a12, a13, a14, a15, a16] =
      (a0 - 48) * 131072 + (a1 - 48) * 65536 + (a2 - 48) * 32768 + (a3 - 48) * 16384 +
      (a4 - 48) * 8192 + (a5 - 48) * 4096 + (a6 - 48) * 2048 + (a7 - 48) * 1024 +
      (a8 - 48) * 512 + (a9 - 48) * 256 + (a10 - 48) * 128 + (a11 - 48) * 64 +
      (a12 - 48) * 32 + (a13 - 48) * 16 + (a14 - 48) * 8 + (a15 - 48) * 4 + (a16 - 48) * 2 := by
  simp [iso7064Sum, List.range, List.range.loop, byteAt]
  ring


theorem digit_byte_sub (a : Nat) (h : 48 ≤ a ∧ a ≤ 57) : (a + 256 - 48) % 256 = a - 48 := by
  omega

theorem pow_weights_mod11 (b0 b1 b2 b3 b4 b5 b6 b7 b8 b9 b10 b11 b12 b13 b14 b15 b16 : Nat) :
    (b0 * 131072 + b1 * 65536 + b2 * 32768 + b3 * 16384 + b4 * 8192 + b5 * 4096 + b6 * 2048 +
      b7 * 1024 + b8 * 512 + b9 * 256 + b10 * 128 + b11 * 64 + b12 * 32 + b13 * 16 + b14 * 8 +
      b15 * 4 + b16 * 2) % 11 =
    (b0 * 7 + b1 * 9 + b2 * 10 + b3 * 5 + b4 * 8 + b5 * 4 + b6 * 2 + b7 * 1 + b8 * 6 + b9 * 3 +
      b10 * 7 + b11 * 9 + b12 * 10 + b13 * 5 + b14 * 8 + b15 * 4 + b16 * 2) % 11 := by
  omega

theorem checkCodes_core (S T : Nat) (h : T % 11 = S % 11) :
    ∃ c, c ≤ 10 ∧ checkCodes.getD (S % 11) [] = checkChar c ∧ (T + c) % 11 = 1 := by
  have hlt : S % 11 < 11 := Nat.mod_lt _ (by decide)
  generalize S % 11 = k at h hlt
  interval_cases k
  · exact ⟨1, by decide, by rfl, by omega⟩
  · exact ⟨0, by decide, by rfl, by omega⟩
  · exact ⟨10, by decide, by rfl, by omega⟩
  · exact ⟨9, by decide, by rfl, by omega⟩
  · exact ⟨8, by decide, by rfl, by omega⟩
  · exact ⟨7, by decide, by rfl, by omega⟩
  · exact ⟨6, by decide, by rfl, by omega⟩
  · exact ⟨5, by decide, by rfl, by omega⟩
  · exact ⟨4, by decide, by rfl, by omega⟩
  · exact ⟨3, by decide, by rfl, by omega⟩
  · exact ⟨2, by decide, by rfl, by omega⟩

/-- C18: `calcCheckBit` is ISO 7064 MOD 11-2. For a body of 17 digits with values
`a_0 .. a_16`, the character returned has a value `c` in 0..10 (`x` for 10) with
`(a_0 * 2^17 + a_1 * 2^16 + ... + a_16 * 2^1 + c) mod 11 = 1`, and the weight at
position `i` is `2^(17 - i) mod 11`. -/
theorem calcCheckBit_iso7064 (body : Str) (hlen : body.length = 17)
    (hd : body.all isDigit = true) :
    (∃ c, c ≤ 10 ∧ calcCheckBit body = checkChar c ∧ (iso7064Sum body + c) % 11 = 1) ∧
    (∀ i, i < 17 → weights.getD i 0 = 2 ^ (17 - i) % 11) ∧
    weights = [7, 9, 10, 5, 8, 4, 2, 1, 6, 3, 7, 9, 10, 5, 8, 4, 2] := by
  refine ⟨?_, weights_pow, rfl⟩
  obtain ⟨a0, a1, a2, a3, a4, a5, a6, a7, a8, a9, a10, a11, a12, a13, a14, a15, a16, rfl⟩ :=
    length17_cases body hlen
  simp only [List.all_cons, List.all_nil, Bool.and_true, Bool.and_eq_true, isDigit,
    decide_eq_true_eq] at hd
  obtain ⟨h0, h1, h2, h3, h4, h5, h6, h7, h8, h9, h10, h11, h12, h13, h14, h15, h16⟩ := hd
  rw [calcCheckBit_explicit, iso7064Sum_explicit, digit_byte_sub a0 h0, digit_byte_sub a1 h1,
    digit_byte_sub a2 h2, digit_byte_sub a3 h3, digit_byte_sub a4 h4, digit_byte_sub a5 h5,
    digit_byte_sub a6 h6, digit_byte_sub a7 h7, digit_byte_sub a8 h8, digit_byte_sub a9 h9,
    digit_byte_sub a10 h10, digit_byte_sub a11 h11, digit_byte_sub a12 h12,
    digit_byte_sub a13 h13, digit_byte_sub a14 h14, digit_byte_sub a15 h15,
    digit_byte_sub a16 h16]
  exact checkCodes_core _ _ (pow_weights_mod11 (a0 - 48) (a1 - 48) (a2 - 48) (a3 - 48) (a4 - 48)
    (a5 - 48) (a6 - 48) (a7 - 48) (a8 - 48) (a9 - 48) (a10 - 48) (a11 - 48) (a12 - 48)
    (a13 - 48) (a14 - 48) (a15 - 48) (a16 - 48))

/-- Witness of C18: the body `11010519491231002`, whose check character is `x`. -/
theorem calcCheckBit_iso7064_witness :
    calcCheckBit (ascii "11010519491231002") = checkChar 10 ∧
      ∃ c, c ≤ 10 ∧ calcCheckBit (ascii "11010519491231002") = checkChar c ∧
        (iso7064Sum (ascii "11010519491231002") + c) % 11 = 1 :=
  ⟨by rfl, (calcCheckBit_iso7064 (ascii "11010519491231002") (by rfl) (by rfl)).1⟩


/-! ## Claims on generated numbers -/

theorem Validate_generated18 (now : Date) (A B O : Str) (hA : A.length = 6) (hB : B.length = 8)
    (hO : O.length = 3) (hAd : A.all isDigit = true) (hBd : B.all isDigit = true)
    (hOd : O.all isDigit = true) (hvalid : isValidBirthday now B = true) :
    (A ++ B ++ O ++ calcCheckBit (A ++ B ++ O)).length = 18 ∧
      Validate now (A ++ B ++ O ++ calcCheckBit (A ++ B ++ O)) = .ok () ∧
      slice (A ++ B ++ O ++ calcCheckBit (A ++ B ++ O)) 0 6 = A ∧
      slice (A ++ B ++ O ++ calcCheckBit (A ++ B ++ O)) 6 14 = B ∧
      slice (A ++ B ++ O ++ calcCheckBit (A ++ B ++ O)) 14 17 = O := by
  have h17 : (A ++ B ++ O).length = 17 := by simp [hA, hB, hO]
  have hall : (A ++ B ++ O).all isDigit = true := by
    simp only [List.all_append, hAd, hBd, hOd, Bool.and_self]
  have hs0 : slice (A ++ B ++ O) 0 6 = A := by
    have := slice_prefix2 A B O
    rwa [hA] at this
  have hs1 : slice (A ++ B ++ O) 6 14 = B := by
    have := slice_mid A B O
    rwa [hA, hB] at this
  have hs2 : slice (A ++ B ++ O) 14 17 = O := by
    have := slice_suffix (A ++ B) O
    rwa [List.length_append, hA, hB, hO] at this
  obtain ⟨c, hc, hok, hnorm⟩ := calcCheckBit_char (A ++ B ++ O) h17
  rw [hc]
  refine ⟨by simp [hA, hB, hO], ?_, ?_, ?_, ?_⟩
  · rw [Validate_append now (A ++ B ++ O) c h17, if_pos ⟨hall, hok⟩, hs1, if_pos hvalid, hnorm,
      hc, if_neg (by simp)]
  · rw [slice_append_left _ _ 0 6 (by omega)]; exact hs0
  · rw [slice_append_left _ _ 6 14 (by omega)]; exact hs1
  · rw [slice_append_left _ _ 14 17 (by omega)]; exact hs2

/-- A full birthday constraint is kept when no zone comes in: for a table of
6-digit codes with a district-tier code, a constraint `YYYYMMDD` with year at
least 1900, month in 1..12, day in 1..28 and a date after neither the local date
`today` nor the UTC date `now` of the clock, a sex `s` of 0 or 1, every region
name and every draw, the number generated with 18 characters carries the
constraint at positions 6..13, and `GetInfo` succeeds on it with the birthday
`YYYY-MM-DD` and the gender `s`. -/
theorem FakeRequireId_full_birthday_of_not_after (g : Gazetteer) (today now : Date)
    (address : String) (sex : Int) (rng : Rng) (y m d : Nat)
    (hdist : ∃ e ∈ g.addressCode, e.1 % 100 ≠ 0)
    (hcodes : ∀ e ∈ g.addressCode, 100000 ≤ e.1 ∧ e.1 ≤ 999999)
    (hy1 : 1900 ≤ y) (hy2 : y ≤ 9999) (hm1 : 1 ≤ m) (hm2 : m ≤ 12) (hd1 : 1 ≤ d) (hd2 : d ≤ 28)
    (hnot : Date.After ⟨y, m, d⟩ today = false) (hutc : Date.After ⟨y, m, d⟩ now = false)
    (hsex : sex = 0 ∨ sex = 1) :
    (FakeRequireId g today true address (padDigits 4 y ++ padDigits 2 m ++ padDigits 2 d) sex
        rng).length = 18 ∧
    slice (FakeRequireId g today true address (padDigits 4 y ++ padDigits 2 m ++ padDigits 2 d)
        sex rng) 6 14 = padDigits 4 y ++ padDigits 2 m ++ padDigits 2 d ∧
    ∃ info,
      GetInfo g now today (FakeRequireId g today true address
        (padDigits 4 y ++ padDigits 2 m ++ padDigits 2 d) sex rng) = .ok info ∧
      info.Info.Birthday =
        padDigits 4 y ++ ascii "-" ++ padDigits 2 m ++ ascii "-" ++ padDigits 2 d ∧
      info.Info.Gender = sex := by
  obtain ⟨c, -, hc1, hc2, hA⟩ := generateAddressCode_six g address rng hdist hcodes
  have hB := generateBirthdayCode_full today (generateAddressCode g address rng).2 y m d hy1 hy2
    hm1 hm2 hd1 hd2 hnot
  obtain ⟨-, -, v, hO, hv1, hv2, hs1, hs0, -⟩ := generateOrderCode_value sex
    (generateAddressCode g address rng).2
  have hne : (generateAddressCode g address rng).1 ≠ [] := by
    rw [hA]; exact padDigits_ne_nil 6 c (by decide)
  have hle : y < now.year ∨ (y = now.year ∧ (m < now.month ∨ (m = now.month ∧ d ≤ now.day))) := by
    simp only [Date.After, Bool.or_eq_false_iff, Bool.and_eq_false_iff,
      decide_eq_false_iff_not] at hutc
    omega
  have hvalid := isValidBirthday_padDigits now y m d (by omega) hy2 hm1 hm2 hd1 hd2 hle
  rw [FakeRequireId_eq g today true address _ sex rng hne, if_pos rfl, hB]
  simp only []
  rw [hA, hO]
  obtain ⟨hlen, hval, -, hsB, hsO⟩ := Validate_generated18 now (padDigits 6 c)
    (padDigits 4 y ++ padDigits 2 m ++ padDigits 2 d) (padDigits 3 v) (padDigits_length 6 c)
    (by simp [padDigits_length]) (padDigits_length 3 v) (padDigits_all_digit 6 c)
    (by simp [List.all_append, padDigits_all_digit]) (padDigits_all_digit 3 v) hvalid
  generalize padDigits 6 c ++ (padDigits 4 y ++ padDigits 2 m ++ padDigits 2 d) ++ padDigits 3 v ++
    calcCheckBit (padDigits 6 c ++ (padDigits 4 y ++ padDigits 2 m ++ padDigits 2 d) ++
      padDigits 3 v) = n at hlen hval hsB hsO ⊢
  refine ⟨hlen, hsB, ?_⟩
  obtain ⟨parsed, hp, -⟩ := Validate_ok_parse now n hval
  have hrec : parsed = record18 n := by
    rcases parseID_ok n parsed hp with ⟨h15, -⟩ | ⟨-, h⟩
    · rw [hlen] at h15; cases h15
    · exact h
  refine ⟨_, GetInfo_of_ok g now today n parsed hval hp, ?_, ?_⟩
  · simp only [hrec, record18, hsB, timeParse_padDigits y m d hy2 hm1 hm2 hd1 hd2,
      Option.getD_some, formatDate, sprintf0d_eq 4 y (by decide) (by omega),
      sprintf0d_eq 2 m (by decide) (by omega), sprintf0d_eq 2 d (by decide) (by omega)]
  · simp only [hrec, record18, hsO, Atoi_padDigits 3 v (by decide) (by omega)]
    rcases hsex with h | h
    · have := (hs0 h).1
      rw [if_pos (by omega), h]
    · have := (hs1 h).1
      rw [if_neg (by omega), h]

/-- An instance of `FakeRequireId_full_birthday_of_not_after`: the constraint
`19900815` and sex 1 on 2024-06-15. -/
theorem FakeRequireId_full_birthday_of_not_after_instance :
    padDigits 4 1990 ++ padDigits 2 8 ++ padDigits 2 15 = ascii "19900815" ∧
      ∃ info,
        GetInfo dongchengGazetteer ⟨2024, 6, 15⟩ ⟨2024, 6, 15⟩
          (FakeRequireId dongchengGazetteer ⟨2024, 6, 15⟩ true ""
            (padDigits 4 1990 ++ padDigits 2 8 ++ padDigits 2 15) 1 [0, 27]) = .ok info ∧
        info.Info.Birthday =
          padDigits 4 1990 ++ ascii "-" ++ padDigits 2 8 ++ ascii "-" ++ padDigits 2 15 ∧
        info.Info.Gender = 1 :=
  ⟨by rfl,
    (FakeRequireId_full_birthday_of_not_after dongchengGazetteer ⟨2024, 6, 15⟩ ⟨2024, 6, 15⟩ "" 1
      [0, 27] 1990 8 15 ⟨(110101, "东城区"), by decide, by decide⟩ (by decide) (by decide)
      (by decide) (by decide) (by decide) (by decide) (by decide) (by rfl) (by rfl)
      (Or.inr rfl)).2.2⟩

/-- C13, at the failing input: at 07:00 of 2024-06-15 in a zone eight hours east of
UTC the UTC date of the clock is 2024-06-14. The constraint `20240615` is not after
the local date and the number generated with sex 1 carries it at positions 6..13,
but the birthday, midnight UTC of 2024-06-15, is after the instant: `Validate` and
`GetInfo` reject the number with `InvalidBirthday`. -/
theorem FakeRequireId_today_rejected :
    Date.After ⟨2024, 6, 15⟩ ⟨2024, 6, 15⟩ = false ∧
      FakeRequireId dongchengGazetteer ⟨2024, 6, 15⟩ true "" (ascii "20240615") 1 [0, 0] =
        ascii "110101202406150010" ∧
      Validate ⟨2024, 6, 14⟩
        (FakeRequireId dongchengGazetteer ⟨2024, 6, 15⟩ true "" (ascii "20240615") 1 [0, 0]) =
        .error .InvalidBirthday ∧
      GetInfo dongchengGazetteer ⟨2024, 6, 14⟩ ⟨2024, 6, 15⟩
        (FakeRequireId dongchengGazetteer ⟨2024, 6, 15⟩ true "" (ascii "20240615") 1 [0, 0]) =
        .error .InvalidBirthday :=
  ⟨by rfl, by rfl, by rfl, by rfl⟩

theorem padDigits_two (n : Nat) : padDigits 2 n = [48 + n / 10 % 10, 48 + n % 10] := by
  simp [padDigits]

theorem padDigits_four_drop (y : Nat) : (padDigits 4 y).drop 2 = padDigits 2 y := by
  have h := padDigits_split 2 2 y
  rw [h]
  have := padDigits_length 2 (y / 10 ^ 2)
  rw [List.drop_append_of_le_length (by omega), List.drop_of_length_le (by omega)]
  rfl

theorem century_padDigits (y : Nat) :
    ascii "19" ++ padDigits 2 y = padDigits 4 (1900 + y % 100) := by
  have h := padDigits_split 2 2 (1900 + y % 100)
  rw [h, padDigits_two, padDigits_two, padDigits_two]
  have e1 : (1900 + y % 100) / 10 ^ 2 / 10 % 10 = 1 := by omega
  have e2 : (1900 + y % 100) / 10 ^ 2 % 10 = 9 := by omega
  have e3 : (1900 + y % 100) / 10 % 10 = y / 10 % 10 := by omega
  have e4 : (1900 + y % 100) % 10 = y % 10 := by omega
  rw [e1, e2, e3, e4]
  rfl

theorem Validate_generated15_of_le (now : Date) (A O : Str) (y m d : Nat) (hA : A.length = 6)
    (hO : O.length = 3) (hAd : A.all isDigit = true) (hOd : O.all isDigit = true)
    (hm1 : 1 ≤ m) (hm2 : m ≤ 12) (hd1 : 1 ≤ d) (hd2 : d ≤ 28)
    (hle : 1900 + y % 100 < now.year ∨
      (1900 + y % 100 = now.year ∧ (m < now.month ∨ (m = now.month ∧ d ≤ now.day)))) :
    (A ++ (padDigits 4 y ++ padDigits 2 m ++ padDigits 2 d).drop 2 ++ O).length = 15 ∧
      Validate now (A ++ (padDigits 4 y ++ padDigits 2 m ++ padDigits 2 d).drop 2 ++ O) =
        .ok () := by
  have hdrop : (padDigits 4 y ++ padDigits 2 m ++ padDigits 2 d).drop 2 =
      padDigits 2 y ++ padDigits 2 m ++ padDigits 2 d := by
    have l4 := padDigits_length 4 y
    rw [List.append_assoc, List.drop_append_of_le_length (by omega), padDigits_four_drop,
      List.append_assoc]
  rw [hdrop]
  have hB6 : (padDigits 2 y ++ padDigits 2 m ++ padDigits 2 d).length = 6 := by
    simp [padDigits_length]
  have hlen : (A ++ (padDigits 2 y ++ padDigits 2 m ++ padDigits 2 d) ++ O).length = 15 := by
    simp [hA, hO, padDigits_length]
  have hall : (A ++ (padDigits 2 y ++ padDigits 2 m ++ padDigits 2 d) ++ O).all isDigit = true := by
    simp only [List.all_append, hAd, hOd, padDigits_all_digit, Bool.and_self]
  have hs : slice (A ++ (padDigits 2 y ++ padDigits 2 m ++ padDigits 2 d) ++ O) 6 12 =
      padDigits 2 y ++ padDigits 2 m ++ padDigits 2 d := by
    have := slice_mid A (padDigits 2 y ++ padDigits 2 m ++ padDigits 2 d) O
    rwa [hA, hB6] at this
  refine ⟨hlen, ?_⟩
  rw [Validate_eq_15 now _ hlen, if_pos hall, hs]
  have hc : ascii "19" ++ (padDigits 2 y ++ padDigits 2 m ++ padDigits 2 d) =
      padDigits 4 (1900 + y % 100) ++ padDigits 2 m ++ padDigits 2 d := by
    rw [← century_padDigits, List.append_assoc, List.append_assoc, List.append_assoc]
  rw [hc, if_pos (isValidBirthday_padDigits now (1900 + y % 100) m d (by omega) (by omega) hm1 hm2
    hd1 hd2 hle)]

/-- C15: for a table of 6-digit codes with a district-tier code, a clock of the
years 2000 to 9999 (the local date `today` of a year up to 9999, the UTC date
`now` of a year from 2000 on), every region name, birthday constraint, sex and
draw, the number generated with `isEighteen = false` has 15 characters, the 6 of
the region code, the last 6 of the 8 of the birth code and the 3 of the sequence
code, and `Validate` accepts it. -/
theorem FakeRequireId_valid15 (g : Gazetteer) (today now : Date) (address : String)
    (birthday : Str) (sex : Int) (rng : Rng)
    (hdist : ∃ e ∈ g.addressCode, e.1 % 100 ≠ 0)
    (hcodes : ∀ e ∈ g.addressCode, 100000 ≤ e.1 ∧ e.1 ≤ 999999)
    (htoday : today.year ≤ 9999) (hnow : 2000 ≤ now.year) :
    (FakeRequireId g today false address birthday sex rng).length = 15 ∧
    (∃ A B O : Str, A.length = 6 ∧ B.length = 8 ∧ O.length = 3 ∧
      A = (generateAddressCode g address rng).1 ∧
      B = (generateBirthdayCode today birthday (generateAddressCode g address rng).2).1 ∧
      O = (generateOrderCode sex
        (generateBirthdayCode today birthday (generateAddressCode g address rng).2).2).1 ∧
      FakeRequireId g today false address birthday sex rng = A ++ B.drop 2 ++ O) ∧
    Validate now (FakeRequireId g today false address birthday sex rng) = .ok () := by
  obtain ⟨c, -, hc1, hc2, hA⟩ := generateAddressCode_six g address rng hdist hcodes
  obtain ⟨y, m, d, hB, -, -, hm1, hm2, hd1, hd2⟩ :=
    generateBirthdayCode_shape today birthday (generateAddressCode g address rng).2 htoday
  have hle : 1900 + y % 100 < now.year ∨
      (1900 + y % 100 = now.year ∧ (m < now.month ∨ (m = now.month ∧ d ≤ now.day))) :=
    Or.inl (by omega)
  obtain ⟨-, -, v, hO, -⟩ := generateOrderCode_value sex
    (generateBirthdayCode today birthday (generateAddressCode g address rng).2).2
  have hne : (generateAddressCode g address rng).1 ≠ [] := by
    rw [hA]; exact padDigits_ne_nil 6 c (by decide)
  have hfake := FakeRequireId_eq g today false address birthday sex rng hne
  rw [if_neg (by decide)] at hfake
  obtain ⟨hlen, hval⟩ := Validate_generated15_of_le now (padDigits 6 c) (padDigits 3 v) y m d
    (padDigits_length 6 c) (padDigits_length 3 v) (padDigits_all_digit 6 c)
    (padDigits_all_digit 3 v) hm1 hm2 hd1 hd2 hle
  rw [← hA, ← hB, ← hO, ← hfake] at hlen hval
  refine ⟨hlen, ⟨_, _, _, ?_, ?_, ?_, rfl, rfl, rfl, hfake⟩, hval⟩
  · rw [hA]; exact padDigits_length 6 c
  · rw [hB]; simp [padDigits_length]
  · rw [hO]; exact padDigits_length 3 v

/-- Witness of C15: a 15-character number generated at 07:00 of 2024-06-15 in a
zone eight hours east of UTC, where the UTC date is 2024-06-14. -/
theorem FakeRequireId_valid15_witness :
    FakeRequireId dongchengGazetteer ⟨2024, 6, 15⟩ false "" (ascii "19900815") 1 [0, 27] =
        ascii "110101900815029" ∧
      Validate ⟨2024, 6, 14⟩
        (FakeRequireId dongchengGazetteer ⟨2024, 6, 15⟩ false "" (ascii "19900815") 1 [0, 27]) =
        .ok () :=
  ⟨by rfl,
    (FakeRequireId_valid15 dongchengGazetteer ⟨2024, 6, 15⟩ ⟨2024, 6, 14⟩ "" (ascii "19900815") 1
      [0, 27] ⟨(110101, "东城区"), by decide, by decide⟩ (by decide) (by decide)
      (by decide)).2.2⟩

theorem mem_of_lookup {β : Type} (l : List (Nat × β)) (k : Nat) (v : β)
    (h : l.lookup k = some v) : (k, v) ∈ l := by
  induction l with
  | nil => simp [List.lookup] at h
  | cons e t ih =>
    obtain ⟨a, b⟩ := e
    by_cases hk : k = a
    · subst hk
      simp [List.lookup] at h
      subst h
      exact List.mem_cons_self _ _
    · have hb : (k == a) = false := by simpa using hk
      simp only [List.lookup, hb] at h
      exact List.mem_cons_of_mem _ (ih h)

theorem find_name (table : List (Nat × String)) (name : String) (p : Nat)
    (hmem : (p, name) ∈ table) (huniq : ∀ e ∈ table, e.2 = name → e.1 = p) :
    (match table.find? (fun e => e.2 == name) with
      | some e => e.1
      | none => 0) = p := by
  cases hf : table.find? (fun e => e.2 == name) with
  | none =>
    rw [List.find?_eq_none] at hf
    have := hf (p, name) hmem
    simp at this
  | some e =>
    simp only []
    have h1 := List.find?_some hf
    have h2 := List.mem_of_find?_eq_some hf
    exact huniq e h2 (by simpa using h1)

theorem padDigits_two_inj (a b : Nat) (ha : a < 100) (hb : b < 100)
    (h : padDigits 2 a = padDigits 2 b) : a = b := by
  have h1 := digitsVal_padDigits 2 a
  have h2 := digitsVal_padDigits 2 b
  rw [h] at h1
  rw [h1] at h2
  omega

theorem MatchString_province (q c : Nat) (hq : q < 100) (hc : c < 1000000) :
    Pattern.MatchString ⟨sprintf0d 2 (q : Int), 4⟩ (sprintf0d 6 (c : Int)) = true ↔
      c / 10000 = q := by
  rw [sprintf0d_eq 2 q (by decide) (by omega), sprintf0d_eq 6 c (by decide) (by omega)]
  have hsplit := padDigits_split 2 4 c
  have l2 := padDigits_length 2 (c / 10 ^ 4)
  have l2q := padDigits_length 2 q
  have htake : (padDigits 6 c).take 2 = padDigits 2 (c / 10 ^ 4) := by
    rw [show (6 : Nat) = 2 + 4 from rfl, hsplit, List.take_left' l2]
  have hdrop : (padDigits 6 c).drop 2 = padDigits 4 c := by
    rw [show (6 : Nat) = 2 + 4 from rfl, hsplit, List.drop_left' l2]
  unfold Pattern.MatchString
  simp only [l2q, htake, hdrop, padDigits_length, padDigits_all_digit, Bool.and_true,
    decide_True, Bool.true_and, decide_eq_true_eq]
  constructor
  · intro h
    have h10 : (10 : Nat) ^ 4 = 10000 := by decide
    rw [h10] at h
    exact padDigits_two_inj _ _ (by omega) hq h
  · intro h
    rw [← h]
    rfl

theorem generateAddressCode_of_province (g : Gazetteer) (name : String) (rng : Rng) (p : Nat)
    (hcodes : ∀ e ∈ g.addressCode, 100000 ≤ e.1 ∧ e.1 ≤ 999999)
    (hname : g.addressCode.lookup p = some name) (hne : name ≠ "")
    (huniq : ∀ e ∈ g.addressCode, e.2 = name → e.1 = p)
    (hprov : p % 10000 = 0) (hspecial : p / 100000 ≠ 8)
    (hdist : ∃ e ∈ g.addressCode, e.1 % 100 ≠ 0 ∧ e.1 / 10000 = p / 10000) :
    ∃ c, c ∈ g.addressCode.map Prod.fst ∧ c % 100 ≠ 0 ∧ c / 10000 = p / 10000 ∧
      (generateAddressCode g name rng).1 = padDigits 6 c := by
  have hmem := mem_of_lookup g.addressCode p name hname
  have hp := hcodes (p, name) hmem
  simp only [] at hp
  have hfind := find_name g.addressCode name p hmem huniq
  have hclass : classifyAddressCode p = "province" := by
    unfold classifyAddressCode
    rw [if_neg hspecial, if_pos hprov]
  have hq : p / 10000 < 100 := by omega
  unfold generateAddressCode
  simp only [if_neg hne, hfind, if_neg (show ¬ p = 0 by omega), hclass, if_true]
  unfold getRandomCodeByPattern
  lift_lets
  extract_lets matched idx
  have hmatched : ∀ c, c ∈ matched ↔
      c ∈ g.addressCode.map Prod.fst ∧ c / 10000 = p / 10000 ∧ c % 100 ≠ 0 := by
    intro c
    simp only [matched, List.mem_filter, Bool.and_eq_true, decide_eq_true_eq]
    constructor
    · rintro ⟨hc, hm, hmod⟩
      obtain ⟨e, he, rfl⟩ := List.mem_map.mp hc
      have := hcodes e he
      exact ⟨hc, (MatchString_province (p / 10000) e.1 hq (by omega)).mp hm, hmod⟩
    · rintro ⟨hc, hm, hmod⟩
      obtain ⟨e, he, rfl⟩ := List.mem_map.mp hc
      have := hcodes e he
      exact ⟨hc, (MatchString_province (p / 10000) e.1 hq (by omega)).mpr hm, hmod⟩
  have hnz : matched.length ≠ 0 := by
    obtain ⟨e, he, hmod, hlead⟩ := hdist
    have : e.1 ∈ matched := (hmatched e.1).mpr ⟨List.mem_map.mpr ⟨e, he, rfl⟩, hlead, hmod⟩
    intro h0
    rw [List.length_eq_zero] at h0
    rw [h0] at this
    cases this
  rw [if_neg hnz]
  have hidx : idx.1 < matched.length := Intn_lt _ _ (Nat.pos_of_ne_zero hnz)
  have hm := (hmatched _).mp (getD_mem_of_lt matched idx.1 hidx)
  obtain ⟨e, he, heq⟩ := List.mem_map.mp hm.1
  have := hcodes e he
  refine ⟨matched.getD idx.1 0, hm.1, hm.2.2, hm.2.1, ?_⟩
  simp only []
  rw [sprintf0d_eq 6 _ (by decide) (by rw [← heq]; omega)]

theorem digitsVal_padDigits_six (c : Nat) (hc : c ≤ 999999) : digitsVal (padDigits 6 c) = c := by
  rw [digitsVal_padDigits]
  omega

/-- C16: in a table of 6-digit codes, let `name`, not empty, be the current name
of a province-tier code `p` (`p % 10000 = 0`, not in the range 8xxxxx) and of no
other code, and let the table hold a district-tier code with the two leading
digits of `p`. Then for every draw, birthday constraint, sex and length asked
for, the first six characters of the number `FakeRequireId` generates for `name`
are a code `c` of the table with `c % 100 ≠ 0` and `c / 10000 = p / 10000`, and
`GetArea` on them gives the province `name`. -/
theorem FakeRequireId_province (g : Gazetteer) (now : Date) (isEighteen : Bool) (name : String)
    (birthday : Str) (sex : Int) (rng : Rng) (p : Nat)
    (hcodes : ∀ e ∈ g.addressCode, 100000 ≤ e.1 ∧ e.1 ≤ 999999)
    (hname : g.addressCode.lookup p = some name) (hne : name ≠ "")
    (huniq : ∀ e ∈ g.addressCode, e.2 = name → e.1 = p)
    (hprov : p % 10000 = 0) (hspecial : p / 100000 ≠ 8)
    (hdist : ∃ e ∈ g.addressCode, e.1 % 100 ≠ 0 ∧ e.1 / 10000 = p / 10000) :
    ∃ c, c ∈ g.addressCode.map Prod.fst ∧ c % 100 ≠ 0 ∧ c / 10000 = p / 10000 ∧
      slice (FakeRequireId g now isEighteen name birthday sex rng) 0 6 = padDigits 6 c ∧
      ∃ a, GetArea g (slice (FakeRequireId g now isEighteen name birthday sex rng) 0 6) = .ok a ∧
        a.Province = name := by
  obtain ⟨c, hc, hmod, hlead, hA⟩ := generateAddressCode_of_province g name rng p hcodes hname hne
    huniq hprov hspecial hdist
  obtain ⟨e, he, heq⟩ := List.mem_map.mp hc
  have hcb := hcodes e he
  rw [heq] at hcb
  have hnil : (generateAddressCode g name rng).1 ≠ [] := by
    rw [hA]; exact padDigits_ne_nil 6 c (by decide)
  have hslice : slice (FakeRequireId g now isEighteen name birthday sex rng) 0 6 =
      padDigits 6 c := by
    rw [FakeRequireId_eq g now isEighteen name birthday sex rng hnil, hA]
    have h6 := padDigits_length 6 c
    split_ifs
    · rw [List.append_assoc, List.append_assoc]
      have := slice_prefix (padDigits 6 c) ((generateBirthdayCode now birthday
        (generateAddressCode g name rng).2).1 ++ ((generateOrderCode sex
          (generateBirthdayCode now birthday (generateAddressCode g name rng).2).2).1 ++
          calcCheckBit (padDigits 6 c ++ ((generateBirthdayCode now birthday
            (generateAddressCode g name rng).2).1 ++ (generateOrderCode sex
              (generateBirthdayCode now birthday (generateAddressCode g name rng).2).2).1))))
      rw [h6] at this
      rw [← List.append_assoc (padDigits 6 c)] at this
      exact this
    · rw [List.append_assoc]
      have := slice_prefix (padDigits 6 c) ((generateBirthdayCode now birthday
        (generateAddressCode g name rng).2).1.drop 2 ++ (generateOrderCode sex
          (generateBirthdayCode now birthday (generateAddressCode g name rng).2).2).1)
      rwa [h6] at this
  refine ⟨c, hc, hmod, hlead, hslice, ?_⟩
  rw [hslice, GetArea_eq g (padDigits 6 c) (padDigits_length 6 c) (padDigits_all_digit 6 c),
    digitsVal_padDigits_six c hcb.2, getAreaByCode_eq]
  have hpc : c / 10000 * 10000 = p := by omega
  have hres : getAddressName g p = name := by
    unfold getAddressName mapGet
    rw [hname]
    simp only [Option.getD_some, ne_eq, hne, not_false_eq_true, if_true]
  rw [hpc, hres, if_neg hne]
  exact ⟨_, rfl, by simp only [tierArea, hpc, hres]⟩

/-- Witness of C16: the name `广东省` in `guangdongGazetteer`. -/
theorem FakeRequireId_province_witness :
    ∃ c, c ∈ guangdongGazetteer.addressCode.map Prod.fst ∧ c % 100 ≠ 0 ∧
      c / 10000 = 440000 / 10000 ∧
      slice (FakeRequireId guangdongGazetteer ⟨2024, 6, 15⟩ true "广东省" [] (-1) [1, 2, 3, 4, 5])
        0 6 = padDigits 6 c ∧
      ∃ a, GetArea guangdongGazetteer
          (slice (FakeRequireId guangdongGazetteer ⟨2024, 6, 15⟩ true "广东省" [] (-1)
            [1, 2, 3, 4, 5]) 0 6) = .ok a ∧
        a.Province = "广东省" :=
  FakeRequireId_province guangdongGazetteer ⟨2024, 6, 15⟩ true "广东省" [] (-1) [1, 2, 3, 4, 5]
    440000 (by decide) (by rfl) (by decide) (by decide) (by decide) (by decide)
    ⟨(440305, "南山区"), by decide, by decide, by decide⟩


/-! ## Claim on single-digit errors -/

theorem checkCodes_injective :
    ∀ j, j < 11 → ∀ k, k < 11 → checkCodes.getD j [] = checkCodes.getD k [] → j = k := by
  decide

theorem calcCheckBit_explicit_digits
    (a0 a1 a2 a3 a4 a5 a6 a7 a8 a9 a10 a11 a12 a13 a14 a15 a16 : Nat)
    (h0 : 48 ≤ a0 ∧ a0 ≤ 57) (h1 : 48 ≤ a1 ∧ a1 ≤ 57) (h2 : 48 ≤ a2 ∧ a2 ≤ 57)
    (h3 : 48 ≤ a3 ∧ a3 ≤ 57) (h4 : 48 ≤ a4 ∧ a4 ≤ 57) (h5 : 48 ≤ a5 ∧ a5 ≤ 57)
    (h6 : 48 ≤ a6 ∧ a6 ≤ 57) (h7 : 48 ≤ a7 ∧ a7 ≤ 57) (h8 : 48 ≤ a8 ∧ a8 ≤ 57)
    (h9 : 48 ≤ a9 ∧ a9 ≤ 57) (h10 : 48 ≤ a10 ∧ a10 ≤ 57) (h11 : 48 ≤ a11 ∧ a11 ≤ 57)
    (h12 : 48 ≤ a12 ∧ a12 ≤ 57) (h13 : 48 ≤ a13 ∧ a13 ≤ 57) (h14 : 48 ≤ a14 ∧ a14 ≤ 57)
    (h15 : 48 ≤ a15 ∧ a15 ≤ 57) (h16 : 48 ≤ a16 ∧ a16 ≤ 57) :
    calcCheckBit [a0, a1, a2, a3, a4, a5, a6, a7, a8, a9, a10, a11, a12, a13, a14, a15, a16] =
      checkCodes.getD
        (((a0 - 48) * 7 + (a1 - 48) * 9 + (a2 - 48) * 10 + (a3 - 48) * 5 + (a4 - 48) * 8 +
          (a5 - 48) * 4 + (a6 - 48) * 2 + (a7 - 48) * 1 + (a8 - 48) * 6 + (a9 - 48) * 3 +
          (a10 - 48) * 7 + (a11 - 48) * 9 + (a12 - 48) * 10 + (a13 - 48) * 5 + (a14 - 48) * 8 +
          (a15 - 48) * 4 + (a16 - 48) * 2) % 11) [] := by
  rw [calcCheckBit_explicit, digit_byte_sub a0 h0, digit_byte_sub a1 h1,
    digit_byte_sub a2 h2, digit_byte_sub a3 h3, digit_byte_sub a4 h4, digit_byte_sub a5 h5,
    digit_byte_sub a6 h6, digit_byte_sub a7 h7, digit_byte_sub a8 h8, digit_byte_sub a9 h9,
    digit_byte_sub a10 h10, digit_byte_sub a11 h11, digit_byte_sub a12 h12,
    digit_byte_sub a13 h13, digit_byte_sub a14 h14, digit_byte_sub a15 h15,
    digit_byte_sub a16 h16]

theorem checkCodes_ne_of_mod_ne (S T : Nat) (h : S % 11 ≠ T % 11) :
    checkCodes.getD (S % 11) [] ≠ checkCodes.getD (T % 11) [] := by
  intro he
  exact h (checkCodes_injective _ (Nat.mod_lt _ (by decide)) _ (Nat.mod_lt _ (by decide)) he)

theorem calcCheckBit_values (b0 b1 b2 b3 b4 b5 b6 b7 b8 b9 b10 b11 b12 b13 b14 b15 b16 : Nat)
    (h0 : b0 ≤ 9) (h1 : b1 ≤ 9) (h2 : b2 ≤ 9) (h3 : b3 ≤ 9) (h4 : b4 ≤ 9) (h5 : b5 ≤ 9) (h6 : b6 ≤
      9) (h7 : b7 ≤ 9) (h8 : b8 ≤ 9) (h9 : b9 ≤ 9) (h10 : b10 ≤ 9) (h11 : b11 ≤ 9) (h12 : b12 ≤ 9)
      (h13 : b13 ≤ 9) (h14 : b14 ≤ 9) (h15 : b15 ≤ 9) (h16 : b16 ≤ 9) :
    calcCheckBit [b0 + 48, b1 + 48, b2 + 48, b3 + 48, b4 + 48, b5 + 48, b6 + 48, b7 + 48, b8 + 48,
      b9 + 48, b10 + 48, b11 + 48, b12 + 48, b13 + 48, b14 + 48, b15 + 48, b16 + 48] =
      checkCodes.getD ((b0 * 7 + b1 * 9 + b2 * 10 + b3 * 5 + b4 * 8 + b5 * 4 + b6 * 2 + b7 * 1 + b8
        * 6 + b9 * 3 + b10 * 7 + b11 * 9 + b12 * 10 + b13 * 5 + b14 * 8 + b15 * 4 + b16 * 2) % 11)
        [] := by
  have key := calcCheckBit_explicit_digits (b0 + 48) (b1 + 48) (b2 + 48) (b3 + 48) (b4 + 48)
    (b5 + 48) (b6 + 48) (b7 + 48) (b8 + 48) (b9 + 48) (b10 + 48) (b11 + 48) (b12 + 48) (b13 + 48)
    (b14 + 48) (b15 + 48) (b16 + 48) (by omega) (by omega) (by omega) (by omega) (by omega)
    (by omega) (by omega) (by omega) (by omega) (by omega) (by omega) (by omega) (by omega)
    (by omega) (by omega) (by omega) (by omega)
  simp only [Nat.add_sub_cancel] at key
  exact key

theorem digit_value (a : Nat) (h : isDigit a = true) : ∃ b, b ≤ 9 ∧ a = b + 48 := by
  simp only [isDigit, Bool.and_eq_true, decide_eq_true_eq] at h
  exact ⟨a - 48, by omega, by omega⟩

set_option maxHeartbeats 1000000 in
theorem calcCheckBit_values_set (b0 b1 b2 b3 b4 b5 b6 b7 b8 b9 b10 b11 b12 b13 b14 b15 b16 e i :
  Nat)
    (h0 : b0 ≤ 9) (h1 : b1 ≤ 9) (h2 : b2 ≤ 9) (h3 : b3 ≤ 9) (h4 : b4 ≤ 9) (h5 : b5 ≤ 9) (h6 : b6 ≤
      9) (h7 : b7 ≤ 9) (h8 : b8 ≤ 9) (h9 : b9 ≤ 9) (h10 : b10 ≤ 9) (h11 : b11 ≤ 9) (h12 : b12 ≤ 9)
      (h13 : b13 ≤ 9) (h14 : b14 ≤ 9) (h15 : b15 ≤ 9) (h16 : b16 ≤ 9) (he : e ≤ 9) (hi : i < 17)
    (hne : e + 48 ≠ byteAt [b0 + 48, b1 + 48, b2 + 48, b3 + 48, b4 + 48, b5 + 48, b6 + 48, b7 + 48,
      b8 + 48, b9 + 48, b10 + 48, b11 + 48, b12 + 48, b13 + 48, b14 + 48, b15 + 48, b16 + 48] i) :
    calcCheckBit ([b0 + 48, b1 + 48, b2 + 48, b3 + 48, b4 + 48, b5 + 48, b6 + 48, b7 + 48, b8 + 48,
      b9 + 48, b10 + 48, b11 + 48, b12 + 48, b13 + 48, b14 + 48, b15 + 48, b16 + 48].set i (e + 48))
      ≠
      calcCheckBit [b0 + 48, b1 + 48, b2 + 48, b3 + 48, b4 + 48, b5 + 48, b6 + 48, b7 + 48, b8 + 48,
        b9 + 48, b10 + 48, b11 + 48, b12 + 48, b13 + 48, b14 + 48, b15 + 48, b16 + 48] := by
  rw [calcCheckBit_values b0 b1 b2 b3 b4 b5 b6 b7 b8 b9 b10 b11 b12 b13 b14 b15 b16 h0 h1 h2 h3 h4
    h5 h6 h7 h8 h9 h10 h11 h12 h13 h14 h15 h16]
  interval_cases i
  · simp only [byteAt, List.getD, List.get?, Option.getD_some] at hne
    simp only [List.set]
    rw [calcCheckBit_values e b1 b2 b3 b4 b5 b6 b7 b8 b9 b10 b11 b12 b13 b14 b15 b16 he h1 h2 h3 h4
      h5 h6 h7 h8 h9 h10 h11 h12 h13 h14 h15 h16]
    apply checkCodes_ne_of_mod_ne
    omega
  · simp only [byteAt, List.getD, List.get?, Option.getD_some] at hne
    simp only [List.set]
    rw [calcCheckBit_values b0 e b2 b3 b4 b5 b6 b7 b8 b9 b10 b11 b12 b13 b14 b15 b16 h0 he h2 h3 h4
      h5 h6 h7 h8 h9 h10 h11 h12 h13 h14 h15 h16]
    apply checkCodes_ne_of_mod_ne
    omega
  · simp only [byteAt, List.getD, List.get?, Option.getD_some] at hne
    simp only [List.set]
    rw [calcCheckBit_values b0 b1 e b3 b4 b5 b6 b7 b8 b9 b10 b11 b12 b13 b14 b15 b16 h0 h1 he h3 h4
      h5 h6 h7 h8 h9 h10 h11 h12 h13 h14 h15 h16]
    apply checkCodes_ne_of_mod_ne
    omega
  · simp only [byteAt, List.getD, List.get?, Option.getD_some] at hne
    simp only [List.set]
    rw [calcCheckBit_values b0 b1 b2 e b4 b5 b6 b7 b8 b9 b10 b11 b12 b13 b14 b15 b16 h0 h1 h2 he h4
      h5 h6 h7 h8 h9 h10 h11 h12 h13 h14 h15 h16]
    apply checkCodes_ne_of_mod_ne
    omega
  · simp only [byteAt, List.getD, List.get?, Option.getD_some] at hne
    simp only [List.set]
    rw [calcCheckBit_values b0 b1 b2 b3 e b5 b6 b7 b8 b9 b10 b11 b12 b13 b14 b15 b16 h0 h1 h2 h3 he
      h5 h6 h7 h8 h9 h10 h11 h12 h13 h14 h15 h16]
    apply checkCodes_ne_of_mod_ne
    omega
  · simp only [byteAt, List.getD, List.get?, Option.getD_some] at hne
    simp only [List.set]
    rw [calcCheckBit_values b0 b1 b2 b3 b4 e b6 b7 b8 b9 b10 b11 b12 b13 b14 b15 b16 h0 h1 h2 h3 h4
      he h6 h7 h8 h9 h10 h11 h12 h13 h14 h15 h16]
    apply checkCodes_ne_of_mod_ne
    omega
  · simp only [byteAt, List.getD, List.get?, Option.getD_some] at hne
    simp only [List.set]
    rw [calcCheckBit_values b0 b1 b2 b3 b4 b5 e b7 b8 b9 b10 b11 b12 b13 b14 b15 b16 h0 h1 h2 h3 h4
      h5 he h7 h8 h9 h10 h11 h12 h13 h14 h15 h16]
    apply checkCodes_ne_of_mod_ne
    omega
  · simp only [byteAt, List.getD, List.get?, Option.getD_some] at hne
    simp only [List.set]
    rw [calcCheckBit_values b0 b1 b2 b3 b4 b5 b6 e b8 b9 b10 b11 b12 b13 b14 b15 b16 h0 h1 h2 h3 h4
      h5 h6 he h8 h9 h10 h11 h12 h13 h14 h15 h16]
    apply checkCodes_ne_of_mod_ne
    omega
  · simp only [byteAt, List.getD, List.get?, Option.getD_some] at hne
    simp only [List.set]
    rw [calcCheckBit_values b0 b1 b2 b3 b4 b5 b6 b7 e b9 b10 b11 b12 b13 b14 b15 b16 h0 h1 h2 h3 h4
      h5 h6 h7 he h9 h10 h11 h12 h13 h14 h15 h16]
    apply checkCodes_ne_of_mod_ne
    omega
  · simp only [byteAt, List.getD, List.get?, Option.getD_some] at hne
    simp only [List.set]
    rw [calcCheckBit_values b0 b1 b2 b3 b4 b5 b6 b7 b8 e b10 b11 b12 b13 b14 b15 b16 h0 h1 h2 h3 h4
      h5 h6 h7 h8 he h10 h11 h12 h13 h14 h15 h16]
    apply checkCodes_ne_of_mod_ne
    omega
  · simp only [byteAt, List.getD, List.get?, Option.getD_some] at hne
    simp only [List.set]
    rw [calcCheckBit_values b0 b1 b2 b3 b4 b5 b6 b7 b8 b9 e b11 b12 b13 b14 b15 b16 h0 h1 h2 h3 h4
      h5 h6 h7 h8 h9 he h11 h12 h13 h14 h15 h16]
    apply checkCodes_ne_of_mod_ne
    omega
  · simp only [byteAt, List.getD, List.get?, Option.getD_some] at hne
    simp only [List.set]
    rw [calcCheckBit_values b0 b1 b2 b3 b4 b5 b6 b7 b8 b9 b10 e b12 b13 b14 b15 b16 h0 h1 h2 h3 h4
      h5 h6 h7 h8 h9 h10 he h12 h13 h14 h15 h16]
    apply checkCodes_ne_of_mod_ne
    omega
  · simp only [byteAt, List.getD, List.get?, Option.getD_some] at hne
    simp only [List.set]
    rw [calcCheckBit_values b0 b1 b2 b3 b4 b5 b6 b7 b8 b9 b10 b11 e b13 b14 b15 b16 h0 h1 h2 h3 h4
      h5 h6 h7 h8 h9 h10 h11 he h13 h14 h15 h16]
    apply checkCodes_ne_of_mod_ne
    omega
  · simp only [byteAt, List.getD, List.get?, Option.getD_some] at hne
    simp only [List.set]
    rw [calcCheckBit_values b0 b1 b2 b3 b4 b5 b6 b7 b8 b9 b10 b11 b12 e b14 b15 b16 h0 h1 h2 h3 h4
      h5 h6 h7 h8 h9 h10 h11 h12 he h14 h15 h16]
    apply checkCodes_ne_of_mod_ne
    omega
  · simp only [byteAt, List.getD, List.get?, Option.getD_some] at hne
    simp only [List.set]
    rw [calcCheckBit_values b0 b1 b2 b3 b4 b5 b6 b7 b8 b9 b10 b11 b12 b13 e b15 b16 h0 h1 h2 h3 h4
      h5 h6 h7 h8 h9 h10 h11 h12 h13 he h15 h16]
    apply checkCodes_ne_of_mod_ne
    omega
  · simp only [byteAt, List.getD, List.get?, Option.getD_some] at hne
    simp only [List.set]
    rw [calcCheckBit_values b0 b1 b2 b3 b4 b5 b6 b7 b8 b9 b10 b11 b12 b13 b14 e b16 h0 h1 h2 h3 h4
      h5 h6 h7 h8 h9 h10 h11 h12 h13 h14 he h16]
    apply checkCodes_ne_of_mod_ne
    omega
  · simp only [byteAt, List.getD, List.get?, Option.getD_some] at hne
    simp only [List.set]
    rw [calcCheckBit_values b0 b1 b2 b3 b4 b5 b6 b7 b8 b9 b10 b11 b12 b13 b14 b15 e h0 h1 h2 h3 h4
      h5 h6 h7 h8 h9 h10 h11 h12 h13 h14 h15 he]
    apply checkCodes_ne_of_mod_ne
    omega

theorem calcCheckBit_set_ne (body : Str) (i d : Nat) (hlen : body.length = 17)
    (hall : body.all isDigit = true) (hi : i < 17) (hd : isDigit d = true)
    (hne : d ≠ byteAt body i) :
    calcCheckBit (body.set i d) ≠ calcCheckBit body := by
  obtain ⟨a0, a1, a2, a3, a4, a5, a6, a7, a8, a9, a10, a11, a12, a13, a14, a15, a16, rfl⟩ :=
    length17_cases body hlen
  simp only [List.all_cons, List.all_nil, Bool.and_true, Bool.and_eq_true] at hall
  obtain ⟨h0, h1, h2, h3, h4, h5, h6, h7, h8, h9, h10, h11, h12, h13, h14, h15, h16⟩ := hall
  obtain ⟨b0, g0, rfl⟩ := digit_value a0 h0
  obtain ⟨b1, g1, rfl⟩ := digit_value a1 h1
  obtain ⟨b2, g2, rfl⟩ := digit_value a2 h2
  obtain ⟨b3, g3, rfl⟩ := digit_value a3 h3
  obtain ⟨b4, g4, rfl⟩ := digit_value a4 h4
  obtain ⟨b5, g5, rfl⟩ := digit_value a5 h5
  obtain ⟨b6, g6, rfl⟩ := digit_value a6 h6
  obtain ⟨b7, g7, rfl⟩ := digit_value a7 h7
  obtain ⟨b8, g8, rfl⟩ := digit_value a8 h8
  obtain ⟨b9, g9, rfl⟩ := digit_value a9 h9
  obtain ⟨b10, g10, rfl⟩ := digit_value a10 h10
  obtain ⟨b11, g11, rfl⟩ := digit_value a11 h11
  obtain ⟨b12, g12, rfl⟩ := digit_value a12 h12
  obtain ⟨b13, g13, rfl⟩ := digit_value a13 h13
  obtain ⟨b14, g14, rfl⟩ := digit_value a14 h14
  obtain ⟨b15, g15, rfl⟩ := digit_value a15 h15
  obtain ⟨b16, g16, rfl⟩ := digit_value a16 h16
  obtain ⟨e, ge, rfl⟩ := digit_value d hd
  exact calcCheckBit_values_set b0 b1 b2 b3 b4 b5 b6 b7 b8 b9 b10 b11 b12 b13 b14 b15 b16 e i
    g0 g1 g2 g3 g4 g5 g6 g7 g8 g9 g10 g11 g12 g13 g14 g15 g16 ge hi hne

theorem byteAt_append_left (a b : Str) (i : Nat) (h : i < a.length) :
    byteAt (a ++ b) i = byteAt a i := by
  simp [byteAt, List.getD, List.getElem?_append_left h]

theorem all_isDigit_set (body : Str) (i d : Nat) (hall : body.all isDigit = true)
    (hd : isDigit d = true) : (body.set i d).all isDigit = true := by
  rw [List.all_eq_true] at hall ⊢
  intro x hx
  rcases List.mem_or_eq_of_mem_set hx with h | h
  · exact hall x h
  · rw [h]; exact hd

/-- C21: the check character detects every single-digit error. In an
18-character number that `Validate` accepts, replacing the character at a
position `i` of 0..16 by another decimal digit gives a number that `Validate`
rejects: with `InvalidBirthday` when the birth code `n'[6:14]` is no longer a valid
date, with `InvalidChecksum` otherwise. -/
theorem Validate_single_digit_error (now : Date) (n : Str) (i d : Nat) (hlen : n.length = 18)
    (hvalid : Validate now n = .ok ()) (hi : i ≤ 16) (hd : isDigit d = true)
    (hne : d ≠ byteAt n i) :
    (Validate now (n.set i d) = .error .InvalidBirthday ∨
      Validate now (n.set i d) = .error .InvalidChecksum) ∧
    (isValidBirthday now (slice (n.set i d) 6 14) = false →
      Validate now (n.set i d) = .error .InvalidBirthday) ∧
    (isValidBirthday now (slice (n.set i d) 6 14) = true →
      Validate now (n.set i d) = .error .InvalidChecksum) := by
  have hbody : (slice n 0 17).length = 17 := by
    rw [slice_length n 0 17 (by omega)]
  have hn := eq_slice_append_last n 17 hlen
  generalize slice n 0 17 = body at hbody hn
  generalize byteAt n 17 = last at hn
  subst hn
  rw [Validate_append now body last hbody] at hvalid
  split_ifs at hvalid with h1 h2 h3
  have hcheck : normCheck last = calcCheckBit body := by
    by_contra h; exact h3 h
  have hi' : i < body.length := by omega
  rw [byteAt_append_left body [last] i hi'] at hne
  have hset : (body ++ [last]).set i d = body.set i d ++ [last] :=
    List.set_append_left i d hi'
  have hlen' : (body.set i d).length = 17 := by
    rw [List.length_set]; exact hbody
  have hall' := all_isDigit_set body i d h1.1 hd
  have hdiff := calcCheckBit_set_ne body i d hbody h1.1 (by omega) hd hne
  have hs : slice (body.set i d ++ [last]) 6 14 = slice (body.set i d) 6 14 :=
    slice_append_left _ _ 6 14 (by omega)
  have hv := Validate_append now (body.set i d) last hlen'
  rw [if_pos ⟨hall', h1.2⟩] at hv
  rw [hset, hs, hv]
  have hne' : normCheck last ≠ calcCheckBit (body.set i d) := by
    rw [hcheck]; exact fun h => hdiff h.symm
  cases hb : isValidBirthday now (slice (body.set i d) 6 14) with
  | false => simp
  | true => simp [hne']

/-- Witness of C21: `11010519491231002X` with the digit at position 9 changed from
9 to 8. -/
theorem Validate_single_digit_error_witness :
    Validate ⟨2024, 6, 15⟩ (ascii "11010519491231002X") = .ok () ∧
      (ascii "11010519491231002X").set 9 56 = ascii "11010519481231002X" ∧
      Validate ⟨2024, 6, 15⟩ ((ascii "11010519491231002X").set 9 56) =
        .error .InvalidChecksum :=
  ⟨by rfl, by rfl,
    (Validate_single_digit_error ⟨2024, 6, 15⟩ (ascii "11010519491231002X") 9 56 (by rfl) (by rfl)
      (by decide) (by rfl) (by decide)).2.2 (by rfl)⟩


end Idcn
